/-
  Verification of mastodon2jekyll (src/mastodon2jekyll.py) against its
  natural-language specification.

  The Python program is shallowly embedded: Python values are modelled by
  the inductive type `PyVal`, uncaught Python exceptions by `PyErr` inside
  `Except`, and the (potentially non-terminating) recursive thread walker
  by a fuel-indexed function returning `PyRes` (where `.div` marks fuel
  exhaustion, i.e. a recursion that has not bottomed out).  The filesystem
  touched by the exporter is modelled as an association list from paths to
  file contents.

  Standard-library calls of the Python code (html.unescape, html.escape,
  yaml.dump, datetime/zoneinfo, BeautifulSoup) are modelled by executable
  Lean functions that are faithful on the inputs this program feeds them;
  each model is documented at its definition.
-/
import Mathlib

set_option maxHeartbeats 1000000
set_option maxRecDepth 4000

/- ========== Definitions: the embedded program ========== -/

/-- Python values as they occur in the parsed archive JSON. -/
inductive PyVal where
  | str : String → PyVal
  | int : Int → PyVal
  | bool : Bool → PyVal
  | pynone : PyVal
  | list : List PyVal → PyVal
  | dict : List (String × PyVal) → PyVal

/-- Uncaught Python exceptions raised by the script. -/
inductive PyErr where
  | keyError : String → PyErr
  | typeError : String → PyErr
  | valueError : String → PyErr
  | attributeError : String → PyErr
deriving DecidableEq, Repr

/-- Result of running a possibly non-terminating piece of the script:
`div` models a recursion that did not terminate within the given fuel,
`exn` an uncaught Python exception, `ok` normal completion. -/
inductive PyRes (α : Type) where
  | div : PyRes α
  | exn : PyErr → PyRes α
  | ok : α → PyRes α

mutual

/-- Model of Python `==` on archive values. -/
def PyVal.beq : PyVal → PyVal → Bool
  | PyVal.str a, PyVal.str b => a == b
  | PyVal.int a, PyVal.int b => a == b
  | PyVal.bool a, PyVal.bool b => a == b
  | PyVal.pynone, PyVal.pynone => true
  | PyVal.list a, PyVal.list b => PyVal.beqList a b
  | PyVal.dict a, PyVal.dict b => PyVal.beqDict a b
  | _, _ => false

/-- Elementwise `==` on Python lists. -/
def PyVal.beqList : List PyVal → List PyVal → Bool
  | [], [] => true
  | x :: xs, y :: ys => PyVal.beq x y && PyVal.beqList xs ys
  | _, _ => false

/-- Entrywise `==` on Python dicts (the archive dicts compared by the
script are always in matching key order, so this models dict `==`). -/
def PyVal.beqDict : List (String × PyVal) → List (String × PyVal) → Bool
  | [], [] => true
  | (k1, v1) :: xs, (k2, v2) :: ys => k1 == k2 && PyVal.beq v1 v2 && PyVal.beqDict xs ys
  | _, _ => false

end

/-- First-match lookup in a Python dict (keys are unique in parsed JSON). -/
def lookupKV : List (String × PyVal) → String → Option PyVal
  | [], _ => Option.none
  | (k, v) :: rest, key => if k == key then Option.some v else lookupKV rest key

/-- Model of Python subscripting `v[key]`: KeyError on a missing key,
TypeError when the value is not a dict. -/
def pyGet (v : PyVal) (key : String) : Except PyErr PyVal :=
  match v with
  | PyVal.dict kvs =>
      match lookupKV kvs key with
      | Option.some x => Except.ok x
      | Option.none => Except.error (PyErr.keyError key)
  | PyVal.str _ => Except.error (PyErr.typeError "string indices must be integers")
  | _ => Except.error (PyErr.typeError "object is not subscriptable")

/-- Python truthiness. -/
def truthy : PyVal → Bool
  | PyVal.str s => !(s == "")
  | PyVal.int n => !(n == 0)
  | PyVal.bool b => b
  | PyVal.pynone => false
  | PyVal.list l => !l.isEmpty
  | PyVal.dict d => !d.isEmpty

def PyVal.isDict : PyVal → Bool
  | PyVal.dict _ => true
  | _ => false

def PyVal.isList : PyVal → Bool
  | PyVal.list _ => true
  | _ => false

/-- Model of `'key' in v and v['key']` for a dict `v`. -/
def truthyKey (v : PyVal) (key : String) : Bool :=
  match v with
  | PyVal.dict kvs =>
      match lookupKV kvs key with
      | Option.some x => truthy x
      | Option.none => false
  | _ => false

/-- Model of `'key' in v` for a dict `v`. -/
def hasKeyB (v : PyVal) (key : String) : Bool :=
  match v with
  | PyVal.dict kvs => (lookupKV kvs key).isSome
  | _ => false

/-- The fixed configuration constants of the script, gathered into a value
(per spec section 1, the source constants are treated as a configuration
object).  `localOffsetMinutes` models `ZoneInfo(local_timezone)` as the
UTC offset, in minutes, of the configured timezone at the instants being
converted (`-300` for `America/Indiana/Indianapolis` in winter). -/
structure Config where
  posts_dir : String
  attachment_dir : String
  my_actor : String
  localOffsetMinutes : Int
  set_published : Bool
  post_layout : String
  max_title_words : Nat
  keep_tag_links : Bool
  wanted_tags : List String
deriving DecidableEq, Repr

/-- The configuration literally present in the source file. -/
def srcConfig : Config :=
  { posts_dir := "./_posts"
  , attachment_dir := "./assets/images"
  , my_actor := "https://mastodon.example.com/users/myname"
  , localOffsetMinutes := -300
  , set_published := false
  , post_layout := "single"
  , max_title_words := 15
  , keep_tag_links := false
  , wanted_tags := ["#sometopic", "#cats"] }

/-- Does the second list start with the first one?  (Used to model
Python substring matching at a position.) -/
def startsWithList : List Char → List Char → Bool
  | [], _ => true
  | _ :: _, [] => false
  | p :: ps, c :: cs => p == c && startsWithList ps cs

/-- Model of Python `s.startswith(p)`. -/
def pyStartsWith (p s : String) : Bool := startsWithList p.data s.data

/-- Does `s` end with `suffix`?  (Used to state the filename claims.) -/
def strEndsWith (suffix s : String) : Bool :=
  startsWithList suffix.data.reverse s.data.reverse

/-- Model of `content.replace("</p><p>", "</p>\n\n<p>")` (source line
108): scan left to right, replace each occurrence, continue after the
replacement (Python `replace` never rescans the replacement text). -/
def fixParas : List Char → List Char
  | '<' :: '/' :: 'p' :: '>' :: '<' :: 'p' :: '>' :: rest =>
      "</p>\n\n<p>".data ++ fixParas rest
  | c :: rest => c :: fixParas rest
  | [] => []

/-- Model of `title.replace('  ', ' ')` (source line 146): each literal
double space becomes a single space, scanning left to right and
continuing after the replacement. -/
def collapseTwoSpaces : List Char → List Char
  | ' ' :: ' ' :: rest => ' ' :: collapseTwoSpaces rest
  | c :: rest => c :: collapseTwoSpaces rest
  | [] => []

/-- Characters removed from each title word: `':'`, `'"'`, `'\''`
(`make_post_title` lines 118-120; `replace(c, '')` removes every
occurrence of the character). -/
def titleDropChars : List Char := [':', Char.ofNat 34, Char.ofNat 39]

/-- The three `word.replace(c, '')` calls of `make_post_title`. -/
def cleanWord (w : List Char) : List Char :=
  w.filter (fun c => !(titleDropChars.contains c))

/-- Python `string.punctuation`. -/
def punctuationChars : List Char :=
  ['!', Char.ofNat 34, '#', '$', '%', '&', Char.ofNat 39, '(', ')', '*', '+', ',',
   '-', '.', '/', ':', ';', '<', '=', '>', '?', '@', '[', Char.ofNat 92, ']', '^',
   '_', Char.ofNat 96, Char.ofNat 123, '|', Char.ofNat 125, '~']

/-- Right fold underlying the `str.split()` model: returns the token
being built at the front of the input and the completed tokens after
it. -/
def swAux : List Char → (List Char × List (List Char))
  | [] => ([], [])
  | c :: cs =>
      let r := swAux cs
      if c.isWhitespace then ([], if r.1.isEmpty then r.2 else r.1 :: r.2)
      else (c :: r.1, r.2)

/-- Model of Python `str.split()` (no separator): split on runs of
whitespace, discarding empty pieces. -/
def splitWs (cs : List Char) : List (List Char) :=
  let r := swAux cs
  if r.1.isEmpty then r.2 else r.1 :: r.2

/-- Model of Python `s.rstrip(chars)`: drop trailing characters belonging
to `chars`. -/
def pyRstrip (chars : List Char) (cs : List Char) : List Char :=
  (cs.reverse.dropWhile (fun c => chars.contains c)).reverse

/-- Model of Python `s.lstrip(chars)`: drop leading characters belonging
to `chars`. -/
def pyLstrip (chars : List Char) (cs : List Char) : List Char :=
  cs.dropWhile (fun c => chars.contains c)

/-- Model of Python `' '.join(words)`. -/
def joinSpace : List (List Char) → List Char
  | [] => []
  | [w] => w
  | w :: ws => w ++ ' ' :: joinSpace ws

/-- Does the word end with the given character (`w.endswith(c)`)? -/
def endsWithChar (c : Char) (w : List Char) : Bool :=
  w.getLast? == Option.some c

/-- Helper of the regex model below: from the characters following a
`'<'`, find the matching `'>'` (regex `.` does not cross a newline), and
return the remainder after it. -/
def findTagEnd : List Char → Option (List Char)
  | [] => Option.none
  | c :: cs =>
      if c == '>' then Option.some cs
      else if c == '\n' then Option.none
      else findTagEnd cs

/-- Fuel-indexed scanner of the `re.sub(r"<.*?>", "", s)` model: at each
`'<'`, if a `'>'` occurs before the next newline, delete through it and
continue after; otherwise keep the `'<'` and move on.  Every step
consumes at least one input character, so fuel `cs.length` (as passed by
`stripTags`) always suffices and the fuel-exhaustion arm is never
reached. -/
def stripTagsF : Nat → List Char → List Char
  | 0, cs => cs
  | Nat.succ _, [] => []
  | Nat.succ n, c :: cs =>
      if c == '<' then
        match findTagEnd cs with
        | Option.some rest => stripTagsF n rest
        | Option.none => c :: stripTagsF n cs
      else c :: stripTagsF n cs

/-- Model of `re.sub(r"<.*?>", "", s)` (the non-validating HTML tag
stripper of `make_post_title`, source line 110). -/
def stripTags (cs : List Char) : List Char := stripTagsF cs.length cs

/-- Entity table of the `html.unescape` model: the entities that actually
occur in Mastodon post HTML, paired with their replacement text. -/
def entityTable : List (List Char × List Char) :=
  [("amp;".data, ['&']), ("lt;".data, ['<']), ("gt;".data, ['>']),
   ("quot;".data, [Char.ofNat 34]), ("apos;".data, [Char.ofNat 39]),
   ("#39;".data, [Char.ofNat 39]), ("nbsp;".data, [Char.ofNat 160])]

/-- Try each entity of the table at the current position; on a match
return the replacement and the input after the consumed entity text. -/
def tryEntityAux : List (List Char × List Char) → List Char → Option (List Char × List Char)
  | [], _ => Option.none
  | (pat, rep) :: table, cs =>
      if pat ≠ [] ∧ startsWithList pat cs = true then Option.some (rep, cs.drop pat.length)
      else tryEntityAux table cs

def tryEntity (cs : List Char) : Option (List Char × List Char) :=
  tryEntityAux entityTable cs

/-- Fuel-indexed scanner of the `html.unescape` model.  Every entity
consumes at least one character, so fuel `cs.length` (as passed by
`unescapeHtml`) always suffices and the fuel-exhaustion arm is never
reached. -/
def unescapeF : Nat → List Char → List Char
  | 0, cs => cs
  | Nat.succ _, [] => []
  | Nat.succ n, c :: cs =>
      if c == '&' then
        match tryEntity cs with
        | Option.some (rep, rest) => rep ++ unescapeF n rest
        | Option.none => c :: unescapeF n cs
      else c :: unescapeF n cs

/-- Model of `html.unescape`, restricted to the entities of
`entityTable` (the titles this program derives never contain other
entities). -/
def unescapeHtml (cs : List Char) : List Char := unescapeF cs.length cs

/-- Model of Python `str.lower()` (ASCII folding; the program only
lowercases hashtags and titles). -/
def lowerStr (s : String) : String := String.mk (s.data.map Char.toLower)

/-- Model of `html.escape(s)` (quote=True): escapes `&`, `<`, `>`,
double quote and apostrophe.  Escaping character by character agrees
with Python's sequential replaces because Python replaces `&` first. -/
def htmlEscape (s : String) : String :=
  String.mk (s.data.flatMap (fun c =>
    if c == '&' then "&amp;".data
    else if c == '<' then "&lt;".data
    else if c == '>' then "&gt;".data
    else if c == Char.ofNat 34 then "&quot;".data
    else if c == Char.ofNat 39 then "&#x27;".data
    else [c]))

/-- Model of `os.path.basename`: the part after the last `'/'`. -/
def pyBasename (s : String) : String :=
  String.mk ((s.data.reverse.takeWhile (fun c => !(c == '/'))).reverse)

/-- Model of `str(v)` for the values the script stringifies (attachment
widths: numbers or strings). -/
def pyStr : PyVal → String
  | PyVal.str s => s
  | PyVal.int n => toString n
  | PyVal.bool b => cond b "True" "False"
  | PyVal.pynone => "None"
  | PyVal.list _ => "[...]"
  | PyVal.dict _ => "\x7b...\x7d"

/-- Model of `yaml.dump(tags, default_flow_style=False)` for a list of
plain (unquoted-safe) strings: a block sequence, `"[]\n"` when empty. -/
def yamlDumpBlock : List String → String
  | [] => "[]\n"
  | ts => String.join (ts.map (fun t => "- " ++ t ++ "\n"))

/-- Model of `yaml.dump(tags, default_flow_style=True)` for a list of
plain strings: an inline sequence followed by a newline. -/
def yamlDumpFlow (ts : List String) : String :=
  "[" ++ String.intercalate ", " ts ++ "]\n"

/-- A timezone-aware datetime as produced by `datetime.fromisoformat`:
civil fields plus a UTC offset in minutes. -/
structure PyDateTime where
  year : Int
  month : Int
  day : Int
  hour : Int
  minute : Int
  second : Int
  offMinutes : Int
deriving DecidableEq, Repr

/-- Days from civil date to days since 1970-01-01 (Howard Hinnant's
`days_from_civil`, with floor divisions). -/
def daysFromCivil (y m d : Int) : Int :=
  let y2 : Int := if m ≤ 2 then y - 1 else y
  let era : Int := Int.fdiv y2 400
  let yoe : Int := y2 - era * 400
  let mp : Int := if m > 2 then m - 3 else m + 9
  let doy : Int := Int.fdiv (153 * mp + 2) 5 + d - 1
  let doe : Int := yoe * 365 + Int.fdiv yoe 4 - Int.fdiv yoe 100 + doy
  era * 146097 + doe - 719468

/-- Days since 1970-01-01 back to a civil date (Hinnant's
`civil_from_days`). -/
def civilFromDays (z0 : Int) : Int × Int × Int :=
  let z : Int := z0 + 719468
  let era : Int := Int.fdiv z 146097
  let doe : Int := z - era * 146097
  let yoe : Int := Int.fdiv (doe - Int.fdiv doe 1460 + Int.fdiv doe 36524 - Int.fdiv doe 146096) 365
  let y : Int := yoe + era * 400
  let doy : Int := doe - (365 * yoe + Int.fdiv yoe 4 - Int.fdiv yoe 100)
  let mp : Int := Int.fdiv (5 * doy + 2) 153
  let d : Int := doy - Int.fdiv (153 * mp + 2) 5 + 1
  let m : Int := if mp < 10 then mp + 3 else mp - 9
  (if m ≤ 2 then y + 1 else y, m, d)

def charDigit (c : Char) : Option Int :=
  if c.isDigit then Option.some ((c.toNat : Int) - 48) else Option.none

def twoDigits (a b : Char) : Option Int := do
  let x ← charDigit a
  let y ← charDigit b
  pure (x * 10 + y)

def fourDigits (a b c d : Char) : Option Int := do
  let x ← twoDigits a b
  let y ← twoDigits c d
  pure (x * 100 + y)

/-- Model of `datetime.fromisoformat` restricted to the shapes a Mastodon
archive contains: `YYYY-MM-DD{T| }HH:MM:SS` followed by `+HH:MM`,
`-HH:MM` or `Z`.  Anything else raises ValueError.  (Python also accepts
naive and fractional-second forms the archive never contains.) -/
def parseIso (s : String) : Except PyErr PyDateTime :=
  let bad : Except PyErr PyDateTime :=
    Except.error (PyErr.valueError ("Invalid isoformat string: " ++ s))
  match s.data with
  | y1 :: y2 :: y3 :: y4 :: '-' :: m1 :: m2 :: '-' :: d1 :: d2 :: sep ::
      h1 :: h2 :: ':' :: n1 :: n2 :: ':' :: s1 :: s2 :: rest =>
      if sep == 'T' || sep == ' ' then
        match fourDigits y1 y2 y3 y4, twoDigits m1 m2, twoDigits d1 d2,
              twoDigits h1 h2, twoDigits n1 n2, twoDigits s1 s2 with
        | Option.some y, Option.some mo, Option.some d,
            Option.some h, Option.some mi, Option.some se =>
            if 1 ≤ mo ∧ mo ≤ 12 ∧ 1 ≤ d ∧ d ≤ 31 ∧ h ≤ 23 ∧ mi ≤ 59 ∧ se ≤ 59 then
              match rest with
              | ['+', o1, o2, ':', o3, o4] =>
                  match twoDigits o1 o2, twoDigits o3 o4 with
                  | Option.some oh, Option.some om =>
                      Except.ok ⟨y, mo, d, h, mi, se, oh * 60 + om⟩
                  | _, _ => bad
              | ['-', o1, o2, ':', o3, o4] =>
                  match twoDigits o1 o2, twoDigits o3 o4 with
                  | Option.some oh, Option.some om =>
                      Except.ok ⟨y, mo, d, h, mi, se, -(oh * 60 + om)⟩
                  | _, _ => bad
              | ['Z'] => Except.ok ⟨y, mo, d, h, mi, se, 0⟩
              | _ => bad
            else bad
        | _, _, _, _, _, _ => bad
      else bad
  | _ => bad

/-- Model of `dt.astimezone(ZoneInfo(local_timezone))`: shift the civil
fields to the target UTC offset (seconds are unaffected since offsets
are whole minutes). -/
def astimezoneOff (dt : PyDateTime) (targetOff : Int) : PyDateTime :=
  let utcMinutes : Int :=
    daysFromCivil dt.year dt.month dt.day * 1440 + dt.hour * 60 + dt.minute - dt.offMinutes
  let localMinutes : Int := utcMinutes + targetOff
  let days : Int := Int.fdiv localMinutes 1440
  let rem : Int := localMinutes - days * 1440
  let ymd := civilFromDays days
  ⟨ymd.1, ymd.2.1, ymd.2.2, Int.fdiv rem 60, rem % 60, dt.second, targetOff⟩

/-- Left-pad the decimal form of a nonnegative integer to two digits. -/
def pad2 (n : Int) : String :=
  if n < 10 then "0" ++ toString n else toString n

/-- Four-digit year field of `strftime` (all archive years have four
digits). -/
def pad4 (n : Int) : String :=
  if n < 10 then "000" ++ toString n
  else if n < 100 then "00" ++ toString n
  else if n < 1000 then "0" ++ toString n
  else toString n

/-- `strftime("%Y-%m-%d")`. -/
def strfDate (dt : PyDateTime) : String :=
  pad4 dt.year ++ "-" ++ pad2 dt.month ++ "-" ++ pad2 dt.day

/-- `strftime("%z")`: sign and four offset digits. -/
def strfOffset (off : Int) : String :=
  (if off < 0 then "-" else "+") ++ pad2 (off.natAbs / 60) ++ pad2 (off.natAbs % 60)

/-- `strftime("%Y-%m-%d %H:%M:%S %z")`. -/
def strfDateTime (dt : PyDateTime) : String :=
  strfDate dt ++ " " ++ pad2 dt.hour ++ ":" ++ pad2 dt.minute ++ ":" ++ pad2 dt.second
    ++ " " ++ strfOffset dt.offMinutes

/-- Does `cs` contain `pat` as a contiguous substring? -/
def containsSub (pat : List Char) : List Char → Bool
  | [] => pat.isEmpty
  | c :: cs => startsWithList pat (c :: cs) || containsSub pat cs

/-- Model of Python `key in v`: key lookup for dicts, substring test for
strings, membership for lists, TypeError otherwise. -/
def pyInDict (v : PyVal) (key : String) : Except PyErr Bool :=
  match v with
  | PyVal.dict kvs => Except.ok (lookupKV kvs key).isSome
  | PyVal.str s => Except.ok (containsSub key.data s.data)
  | PyVal.list l => Except.ok (l.any (fun x => PyVal.beq x (PyVal.str key)))
  | _ => Except.error (PyErr.typeError "argument is not iterable")

/-- The value of a non-string tag `name`: the source then calls
`.lower()` / `.lstrip()` on it, raising AttributeError (the source always
passes at least one of `lowercase` / `removeoctothorpe` as true). -/
def tagNameStr (v : PyVal) : Except PyErr String :=
  match v with
  | PyVal.str s => Except.ok s
  | _ => Except.error (PyErr.attributeError "tag name has no lower or lstrip method")

/-- The collection loop of `get_post_tags` (source lines 84-92): keep
`type == 'Hashtag'` entries, optionally lowercase, optionally strip
leading `'#'` characters. -/
def collectTags : List PyVal → Bool → Bool → Except PyErr (List String)
  | [], _, _ => Except.ok []
  | t :: ts, lc, ro => do
      let ty ← pyGet t "type"
      if PyVal.beq ty (PyVal.str "Hashtag") then do
        let nmv ← pyGet t "name"
        let nm0 ← tagNameStr nmv
        let nm1 := if lc then lowerStr nm0 else nm0
        let nm2 := if ro then String.mk (pyLstrip ['#'] nm1.data) else nm1
        let rest ← collectTags ts lc ro
        Except.ok (nm2 :: rest)
      else collectTags ts lc ro

/-- `get_post_tags(post, lowercase, removeoctothorpe)` (source lines
68-94). -/
def get_post_tags (post : PyVal) (lowercase removeoctothorpe : Bool) :
    Except PyErr (List String) := do
  let obj ← pyGet post "object"
  let tin ← pyInDict obj "tag"
  if !tin then Except.ok []
  else do
    let tv ← pyGet obj "tag"
    match tv with
    | PyVal.list tl => collectTags tl lowercase removeoctothorpe
    | _ => Except.ok []

/-- `post['object']['content']`, which must be a string (the source
immediately calls `.replace` on it). -/
def contentStr (post : PyVal) : Except PyErr String := do
  let obj ← pyGet post "object"
  let cv ← pyGet obj "content"
  match cv with
  | PyVal.str s => Except.ok s
  | _ => Except.error (PyErr.attributeError "content has no replace method")

/-- The text pipeline of `make_post_title` before word assembly (source
lines 108-110): paragraph-break insertion, HTML tag stripping, entity
decoding. -/
def plainTextOf (content : String) : List Char :=
  unescapeHtml (stripTags (fixParas content.data))

/-- `plaintext.split()[:max_title_words]` (source line 112). -/
def firstWords (cfg : Config) (content : String) : List (List Char) :=
  (splitWs (plainTextOf content)).take cfg.max_title_words

/-- The title-assembly loop (source lines 115-127): clean each word, stop
after a word that ends in `'.'` or a newline. -/
def buildTitle : List (List Char) → List (List Char)
  | [] => []
  | w :: ws =>
      let w2 := cleanWord w
      if endsWithChar '.' w2 || endsWithChar '\n' w2 then [w2]
      else w2 :: buildTitle ws

/-- `make_post_title` as a function of the post content (source lines
105-130). -/
def titleFromContent (cfg : Config) (content : String) : String :=
  String.mk (pyRstrip punctuationChars (joinSpace (buildTitle (firstWords cfg content))))

/-- `make_post_title(post)` (source lines 96-130). -/
def make_post_title (cfg : Config) (post : PyVal) : Except PyErr String := do
  let c ← contentStr post
  Except.ok (titleFromContent cfg c)

/-- The slug transformation (source lines 141-146): lowercase, remove
punctuation, collapse literal double spaces, then turn every remaining
whitespace character into a hyphen. -/
def slugFromTitle (title : String) : String :=
  let t1 := title.data.map Char.toLower
  let t2 := t1.filter (fun c => !(punctuationChars.contains c))
  let t3 := collapseTwoSpaces t2
  String.mk (t3.map (fun c => if c.isWhitespace then '-' else c))

/-- `make_post_slug(post)` (source lines 132-146). -/
def make_post_slug (cfg : Config) (post : PyVal) : Except PyErr String := do
  let t ← make_post_title cfg post
  Except.ok (slugFromTitle t)

/-- `post['published']` — read from the top level of the activity record
(source lines 159 and 183), and required to be a string by
`datetime.fromisoformat`. -/
def publishedStr (post : PyVal) : Except PyErr String := do
  let pv ← pyGet post "published"
  match pv with
  | PyVal.str s => Except.ok s
  | _ => Except.error (PyErr.typeError "fromisoformat: argument must be str")

/-- `datetime.fromisoformat(post['published']).astimezone(ZoneInfo(local_timezone))`. -/
def localDateTime (cfg : Config) (post : PyVal) : Except PyErr PyDateTime := do
  let s ← publishedStr post
  let dt ← parseIso s
  Except.ok (astimezoneOff dt cfg.localOffsetMinutes)

/-- `make_post_filename(post)` (source lines 148-161). -/
def make_post_filename (cfg : Config) (post : PyVal) : Except PyErr String := do
  let slug ← make_post_slug cfg post
  let ldt ← localDateTime cfg post
  Except.ok (cfg.posts_dir ++ "/" ++ strfDate ldt ++ "-" ++ slug ++ ".markdown")

/-- `make_front_matter(post)` (source lines 163-197).  Keys in source
order: layout, published, title, date, excerpt, categories (block-style
tag list), tags (flow-style tag list). -/
def make_front_matter (cfg : Config) (post : PyVal) : Except PyErr String := do
  let title ← make_post_title cfg post
  let ldt ← localDateTime cfg post
  let posttags ← get_post_tags post false true
  Except.ok ("---\n" ++ "layout: " ++ cfg.post_layout ++ "\n"
    ++ "published: " ++ (cond cfg.set_published "true" "false") ++ "\n"
    ++ "title: " ++ title ++ "\n"
    ++ "date: " ++ strfDateTime ldt ++ "\n"
    ++ "excerpt: \"...\"\n"
    ++ "categories:\n" ++ yamlDumpBlock posttags
    ++ "tags: " ++ yamlDumpFlow posttags
    ++ "---\n")

/-- The filesystem seen by the script: paths mapped to file contents. -/
def FS : Type := List (String × String)

def hasFile (fs : FS) (p : String) : Bool := fs.any (fun e => e.1 == p)

def getFile (fs : FS) (p : String) : Option String :=
  (fs.find? (fun e => e.1 == p)).map (fun e => e.2)

def setFile (fs : FS) (p v : String) : FS := (p, v) :: fs

/-- `shutil.copy2(src, dst)` (the source checks `os.path.isfile(src)`
immediately before every copy, so the source file exists). -/
def copyFile (fs : FS) (src dst : String) : FS :=
  match getFile fs src with
  | Option.some v => setFile fs dst v
  | Option.none => fs

def asStr (v : PyVal) (e : PyErr) : Except PyErr String :=
  match v with
  | PyVal.str s => Except.ok s
  | _ => Except.error e

/-- The newline-flattened, HTML-escaped alt text of an attachment
(`html.escape(att['name'].replace('\n', ' '))`, source lines 238 and
247); reading `att['name']` raises KeyError when absent. -/
def altText (att : PyVal) : Except PyErr (Option String) := do
  let namev ← pyGet att "name"
  if truthy namev then do
    let nm ← asStr namev (PyErr.attributeError "name has no replace method")
    Except.ok (Option.some (htmlEscape
      (String.mk (nm.data.map (fun c => if c == '\n' then ' ' else c)))))
  else Except.ok Option.none

/-- The markup for one present attachment (source lines 231-253): a
figure include for `image/*`, a `<video>` element for `video/*`, and no
markup for any other MIME type. -/
def attEntryText (att : PyVal) (postMediaFile : String) : Except PyErr String := do
  let mtv ← pyGet att "mediaType"
  let mt ← asStr mtv (PyErr.attributeError "mediaType has no startswith method")
  if pyStartsWith "image/" mt then do
    let e0 := "\n\x7b% include figure popup=true image_path=\"" ++ postMediaFile ++ "\""
    let alt ← altText att
    let e1 :=
      match alt with
      | Option.some a => e0 ++ " alt=\"" ++ a ++ "\""
      | Option.none => e0
    Except.ok (e1 ++ " %\x7d\n")
  else if pyStartsWith "video/" mt then do
    let e0 := "\n<video src=\"" ++ String.mk (pyLstrip ['.'] postMediaFile.data)
                ++ "\" controls=\"controls\""
    let alt ← altText att
    let e1 :=
      match alt with
      | Option.some a => e0 ++ " alt=\"" ++ a ++ "\""
      | Option.none => e0
    let widthv ← pyGet att "width"
    let e2 :=
      if truthy widthv then e1 ++ " style=\"max-width: " ++ pyStr widthv ++ "px;\""
      else e1
    Except.ok (e2 ++ "></video>\n")
  else Except.ok ""

/-- One iteration of the attachment loop (source lines 217-262): build
the source and destination paths, skip silently (no markup, no copy) when
the source file is missing, otherwise produce the image/video markup and
copy the file. -/
def processAtt (cfg : Config) (fs : FS) (att : PyVal) : Except PyErr (String × FS) := do
  let urlv ← pyGet att "url"
  let url ← asStr urlv (PyErr.typeError "can only concatenate str to str")
  if !(hasFile fs ("." ++ url)) then Except.ok ("", fs)
  else do
    let entry ← attEntryText att (cfg.attachment_dir ++ "/" ++ pyBasename ("." ++ url))
    Except.ok (entry,
      copyFile fs ("." ++ url) (cfg.attachment_dir ++ "/" ++ pyBasename ("." ++ url)))

/-- The `for att in post['object']['attachment']` loop of
`process_attachments`. -/
def attLoop (cfg : Config) : List PyVal → String → FS → Except PyErr (String × FS)
  | [], acc, fs => Except.ok (acc, fs)
  | att :: rest, acc, fs => do
      let r ← processAtt cfg fs att
      attLoop cfg rest (acc ++ r.1) r.2

/-- `process_attachments(post)` (source lines 199-264). -/
def process_attachments (cfg : Config) (fs : FS) (post : PyVal) :
    Except PyErr (String × FS) := do
  let obj ← pyGet post "object"
  let tin ← pyInDict obj "attachment"
  if !tin then Except.ok ("", fs)
  else do
    let av ← pyGet obj "attachment"
    match av with
    | PyVal.list atts => attLoop cfg atts "" fs
    | _ => Except.ok ("", fs)

/-- Split a character stream at the first `'>'`: returns the characters
before it and the remainder after it. -/
def splitAtGt : List Char → Option (List Char × List Char)
  | [] => Option.none
  | c :: cs =>
      if c == '>' then Option.some ([], cs)
      else
        match splitAtGt cs with
        | Option.some (h, r) => Option.some (c :: h, r)
        | Option.none => Option.none

/-- Drop everything through the first occurrence of `pat`; `none` when
`pat` does not occur. -/
def dropAfter (pat : List Char) : List Char → Option (List Char)
  | [] => Option.none
  | c :: cs =>
      if pat ≠ [] ∧ startsWithList pat (c :: cs) = true then
        Option.some ((c :: cs).drop pat.length)
      else dropAfter pat cs

/-- Fuel-indexed scanner of the BeautifulSoup model below.  Every step
consumes at least one input character, so fuel `cs.length` always
suffices and the fuel-exhaustion arm is never reached. -/
def removeAnchorsF : Nat → List Char → List Char
  | 0, cs => cs
  | Nat.succ _, [] => []
  | Nat.succ n, c :: cs =>
      if startsWithList "<a ".data (c :: cs) then
        match splitAtGt cs with
        | Option.some (hdr, rest) =>
            if containsSub "class=\"mention hashtag\"".data hdr then
              match dropAfter "</a>".data rest with
              | Option.some r => removeAnchorsF n r
              | Option.none => c :: removeAnchorsF n cs
            else c :: removeAnchorsF n cs
        | Option.none => c :: removeAnchorsF n cs
      else c :: removeAnchorsF n cs

/-- Model of the BeautifulSoup pass of `make_post_text` (source lines
285-289): every `<a ...>` element whose tag header carries
`class="mention hashtag"` is removed together with its content through
the matching `</a>` (`tag.decompose()`); Mastodon post HTML never nests
anchors. -/
def removeHashtagAnchors (cs : List Char) : List Char := removeAnchorsF cs.length cs

/-- The content normalization step of `make_post_text`: BeautifulSoup
parse, optional removal of `a.mention.hashtag` elements, `prettify`
(re-serialization is modelled as the identity — per spec section 4.5
exact whitespace is not contractually significant). -/
def bsNormalize (keep : Bool) (body : String) : String :=
  if keep then body else String.mk (removeHashtagAnchors body.data)

/-- `archive['orderedItems']`, which the script iterates (the archive's
`orderedItems` is a JSON array; iterating any other shape is modelled as
a TypeError). -/
def getItems (archive : PyVal) : Except PyErr (List PyVal) := do
  let iv ← pyGet archive "orderedItems"
  match iv with
  | PyVal.list items => Except.ok items
  | _ => Except.error (PyErr.typeError "orderedItems is not iterable")

/-- `apost['object']` as an optional value (no exception). -/
def objectOf (apost : PyVal) : Option PyVal :=
  match apost with
  | PyVal.dict kvs => lookupKV kvs "object"
  | _ => Option.none

/-- The record-shape guard of `main` (source lines 357-359):
`isinstance(apost, dict) and 'object' in apost and
isinstance(apost['object'], dict)`. -/
def recordShapeOk (apost : PyVal) : Bool :=
  apost.isDict &&
    (match objectOf apost with
     | Option.some o => o.isDict
     | Option.none => false)

/-- The record-shape guard of `find_post_by_id` (source lines 329-332),
which additionally requires an `id` key in the object. -/
def findShapeOk (apost : PyVal) : Bool :=
  recordShapeOk apost &&
    (match objectOf apost with
     | Option.some o => hasKeyB o "id"
     | Option.none => false)

/-- The scan loop of `find_post_by_id` (source lines 327-347): skip
records failing the shape guard, skip records whose `actor` or
`attributedTo` differ from the configured identity (the `or` is
short-circuiting: `attributedTo` is only read when `actor` matches),
return the first surviving record whose object `id` equals `postid`;
an empty dict when none matches. -/
def findLoop (cfg : Config) : List PyVal → PyVal → Except PyErr PyVal
  | [], _ => Except.ok (PyVal.dict [])
  | apost :: rest, postid =>
      if !(findShapeOk apost) then findLoop cfg rest postid
      else do
        let actor ← pyGet apost "actor"
        if !(PyVal.beq actor (PyVal.str cfg.my_actor)) then findLoop cfg rest postid
        else do
          let obj ← pyGet apost "object"
          let attrib ← pyGet obj "attributedTo"
          if !(PyVal.beq attrib (PyVal.str cfg.my_actor)) then findLoop cfg rest postid
          else do
            let idv ← pyGet obj "id"
            if PyVal.beq idv postid then Except.ok apost
            else findLoop cfg rest postid

/-- `find_post_by_id(archive, postid)` (source lines 317-347). -/
def find_post_by_id (cfg : Config) (archive postid : PyVal) : Except PyErr PyVal := do
  let items ← getItems archive
  findLoop cfg items postid

/-- The reply-structure guard of `make_post_text` (source lines 299-305):
the object's `replies.first.items`, provided every level has the expected
shape and the items list is non-empty.  Only called on posts whose
`object` is a dict (the content has already been read). -/
def replyItemsOf (post : PyVal) : Option (List PyVal) :=
  match objectOf post with
  | Option.some (PyVal.dict okvs) =>
      match lookupKV okvs "replies" with
      | Option.some (PyVal.dict rkvs) =>
          match lookupKV rkvs "first" with
          | Option.some (PyVal.dict fkvs) =>
              match lookupKV fkvs "items" with
              | Option.some (PyVal.list items) =>
                  if items.isEmpty then Option.none else Option.some items
              | _ => Option.none
          | _ => Option.none
      | _ => Option.none
  | _ => Option.none

/-- Sequence an exception-raising step into a possibly-diverging
computation: the Python semantics of running `m` and continuing with its
value. -/
def liftE {α β : Type} (m : Except PyErr α) (f : α → PyRes β) : PyRes β :=
  match m with
  | Except.error e => PyRes.exn e
  | Except.ok a => f a

/-- Sequencing of possibly-diverging computations. -/
def bindR {α β : Type} (m : PyRes α) (f : α → PyRes β) : PyRes β :=
  match m with
  | PyRes.div => PyRes.div
  | PyRes.exn e => PyRes.exn e
  | PyRes.ok a => f a

/-- The `for reply in post['object']['replies']['first']['items']` loop
of `make_post_text` (source lines 307-313), with the recursive
`make_post_text` call passed in as `f`: resolve each listed id via
`find_post_by_id` and, when the result is non-empty, append its
recursively rendered thread after a blank-line separator. -/
def repliesLoop (cfg : Config) (archive : PyVal)
    (f : PyVal → FS → PyRes (String × FS)) :
    List PyVal → String → FS → PyRes (String × FS)
  | [], bt, fs => PyRes.ok (bt, fs)
  | rid :: rest, bt, fs =>
      liftE (find_post_by_id cfg archive rid) fun rp =>
        if truthy rp then
          bindR (f rp fs) fun sf =>
            repliesLoop cfg archive f rest (bt ++ "\n" ++ sf.1) sf.2
        else repliesLoop cfg archive f rest bt fs

/-- `make_post_text(archive, post)` (source lines 266-315), indexed by
recursion fuel: `PyRes.div` when the recursion does not bottom out within
the fuel.  Empty post → `""`; otherwise normalized content plus newline,
then attachment markup after a blank line when non-empty, then each
resolved reply rendered recursively in listed order. -/
def make_post_text (cfg : Config) (archive : PyVal) :
    Nat → PyVal → FS → PyRes (String × FS)
  | 0, _, _ => PyRes.div
  | Nat.succ n, post, fs =>
      if !(truthy post) then PyRes.ok ("", fs)
      else
        liftE (contentStr post) fun c =>
          liftE (process_attachments cfg fs post) fun pr =>
            let body0 := bsNormalize cfg.keep_tag_links (c ++ "\n")
            let body1 := if !(pr.1 == "") then body0 ++ "\n" ++ pr.1 else body0
            match replyItemsOf post with
            | Option.none => PyRes.ok (body1, pr.2)
            | Option.some items =>
                repliesLoop cfg archive (make_post_text cfg archive n) items body1 pr.2

/-- Non-empty intersection of two tag lists,
`bool(set(wanted_tags) & set(posttags))`. -/
def setIntersects (a b : List String) : Bool := a.any (fun x => b.contains x)

/-- The per-record selection check inlined in `main` (source lines
357-393), spec name `isExportable`: shape guard, actor/`attributedTo`
ownership, thread-root (`inReplyTo`), wanted-tags filter, and the
`"RE: "` boost heuristic, in source order.  Reject = `ok false`; an
exception raised by a step propagates. -/
def is_exportable (cfg : Config) (apost : PyVal) : Except PyErr Bool :=
  if !(recordShapeOk apost) then Except.ok false
  else do
    let actor ← pyGet apost "actor"
    if !(PyVal.beq actor (PyVal.str cfg.my_actor)) then Except.ok false
    else do
      let obj ← pyGet apost "object"
      let attrib ← pyGet obj "attributedTo"
      if !(PyVal.beq attrib (PyVal.str cfg.my_actor)) then Except.ok false
      else if truthyKey obj "inReplyTo" then Except.ok false
      else do
        let posttags ← get_post_tags apost true false
        if !cfg.wanted_tags.isEmpty && posttags.isEmpty then Except.ok false
        else if !cfg.wanted_tags.isEmpty && !(setIntersects cfg.wanted_tags posttags) then
          Except.ok false
        else do
          let title ← make_post_title cfg apost
          if pyStartsWith "RE: " title then Except.ok false
          else Except.ok true

/-- The exclusive-create write of `main` (source lines 415-421):
`open(filename, "x")` writes only when the path does not exist; on
`FileExistsError` the file is left untouched and the write reports
failure. -/
def writePostFile (fs : FS) (filename text : String) : FS × Bool :=
  if hasFile fs filename then (fs, false) else (setFile fs filename text, true)

/-- `apost['object']['url']` as the string spliced into the attribution
line (source line 404). -/
def urlString (apost : PyVal) : Except PyErr String := do
  let obj ← pyGet apost "object"
  let uv ← pyGet obj "url"
  asStr uv (PyErr.typeError "can only concatenate str to str")

/-- `apost['object']['id']`, recorded after a successful write (source
line 419). -/
def idOf (apost : PyVal) : Except PyErr PyVal := do
  let obj ← pyGet apost "object"
  pyGet obj "id"

/-- The generation arm of `main`'s loop for an accepted record (source
lines 395-421): front matter, thread body, attribution link, filename,
exclusive-create write; the object `id` is recorded only after a
successful write. -/
def generatePost (cfg : Config) (archive : PyVal) (fuel : Nat) (fs : FS) (apost : PyVal) :
    PyRes (FS × Option PyVal) :=
  liftE (make_front_matter cfg apost) fun fm =>
    bindR (make_post_text cfg archive fuel apost fs) fun bodyfs =>
      liftE (urlString apost) fun url =>
        let text := fm ++ "\n" ++ bodyfs.1 ++ "\n[Imported from Mastodon](" ++ url ++ ")\n\n"
        liftE (make_post_filename cfg apost) fun filename =>
          let wr := writePostFile bodyfs.2 filename text
          if wr.2 then
            liftE (idOf apost) fun idv => PyRes.ok (wr.1, Option.some idv)
          else PyRes.ok (wr.1, Option.none)

/-- The `for apost in archive['orderedItems']` loop of `main` (source
lines 354-421), accumulating the ids of newly written posts
(`target_posts`). -/
def mainLoopItems (cfg : Config) (archive : PyVal) (fuel : Nat) :
    List PyVal → FS → List PyVal → PyRes (FS × List PyVal)
  | [], fs, acc => PyRes.ok (fs, acc)
  | apost :: rest, fs, acc =>
      liftE (is_exportable cfg apost) fun b =>
        if b then
          bindR (generatePost cfg archive fuel fs apost) fun fr =>
            match fr.2 with
            | Option.some pid => mainLoopItems cfg archive fuel rest fr.1 (acc ++ [pid])
            | Option.none => mainLoopItems cfg archive fuel rest fr.1 acc
        else mainLoopItems cfg archive fuel rest fs acc

/-- The body of `main`'s `try` block after the archive has been read:
one pass over `orderedItems`, returning the final filesystem and the
list of generated post ids (whose length is the printed count). -/
def runMain (cfg : Config) (archive : PyVal) (fuel : Nat) (fs : FS) :
    PyRes (FS × List PyVal) :=
  liftE (getItems archive) fun items => mainLoopItems cfg archive fuel items fs []

/-- Outcome of `main`: normal completion (count printed), or the
`except ValueError` arm returning the error message. -/
inductive MainOutcome where
  | completed : FS → List PyVal → MainOutcome
  | abortedValueError : String → MainOutcome

/-- `main()` (source lines 349-426): the loop wrapped in
`try ... except ValueError`; any other exception propagates and aborts
the process. -/
def m2j_main (cfg : Config) (archive : PyVal) (fuel : Nat) (fs : FS) : PyRes MainOutcome :=
  match runMain cfg archive fuel fs with
  | PyRes.ok (fs1, posts) => PyRes.ok (MainOutcome.completed fs1 posts)
  | PyRes.exn (PyErr.valueError m) => PyRes.ok (MainOutcome.abortedValueError m)
  | PyRes.exn e => PyRes.exn e
  | PyRes.div => PyRes.div

/-- An archive value with the given `orderedItems`. -/
def mkArchive (items : List PyVal) : PyVal :=
  PyVal.dict [("orderedItems", PyVal.list items)]

/-- A record that `find_post_by_id`'s scan skips without raising: it
fails the shape guard, or its `actor` reads successfully and differs
from the configured identity, or its `actor` matches and its
`attributedTo` reads successfully and differs. -/
def NonOwnedSkippable (cfg : Config) (bad : PyVal) : Prop :=
  findShapeOk bad = false ∨
  (∃ v, pyGet bad "actor" = Except.ok v ∧ PyVal.beq v (PyVal.str cfg.my_actor) = false) ∨
  (pyGet bad "actor" = Except.ok (PyVal.str cfg.my_actor) ∧
   ∃ o w, pyGet bad "object" = Except.ok o ∧ pyGet o "attributedTo" = Except.ok w ∧
          PyVal.beq w (PyVal.str cfg.my_actor) = false)

/-- Identity-"A" configuration used by the concrete examples of the
claims. -/
def cfgA : Config := { srcConfig with my_actor := "A", wanted_tags := ["#cats"] }

/-- A well-formed record owned by identity `"A"`. -/
def exOwned : PyVal :=
  PyVal.dict [("actor", PyVal.str "A"),
    ("object", PyVal.dict [("id", PyVal.str "1"), ("attributedTo", PyVal.str "A")])]

/-- A well-formed record owned by another identity `"B"`. -/
def exBad : PyVal :=
  PyVal.dict [("actor", PyVal.str "B"),
    ("object", PyVal.dict [("id", PyVal.str "2"), ("attributedTo", PyVal.str "B")])]

/-- The reply-reference graph of an archive: an edge from `p` to `r`
when some id in `p`'s well-formed `replies.first.items` list resolves
through `find_post_by_id` to the non-empty record `r`. -/
def replyEdge (cfg : Config) (archive : PyVal) (p r : PyVal) : Prop :=
  ∃ items rid, replyItemsOf p = Option.some items ∧ rid ∈ items ∧
    find_post_by_id cfg archive rid = Except.ok r ∧ truthy r = true

/-- Tokens of the `str.split()` model contain no whitespace. -/
def NoWsL (w : List Char) : Prop := ∀ c ∈ w, c.isWhitespace = false

/-- The title-assembly loop as described by claim C9's refinement: the
same loop with the ends-with-newline test removed. -/
def buildTitleNoNewline : List (List Char) → List (List Char)
  | [] => []
  | w :: ws =>
      let w2 := cleanWord w
      if endsWithChar '.' w2 then [w2]
      else w2 :: buildTitleNoNewline ws

/-- `titleFromContent` with the newline early-stop removed (claim C9's
comparison definition). -/
def titleFromContentNoNewline (cfg : Config) (content : String) : String :=
  String.mk (pyRstrip punctuationChars (joinSpace (buildTitleNoNewline (firstWords cfg content))))

/-- `make_post_title` with the newline early-stop removed (claim C9's
comparison definition). -/
def make_post_title_noNewline (cfg : Config) (post : PyVal) : Except PyErr String := do
  let c ← contentStr post
  Except.ok (titleFromContentNoNewline cfg c)

/-- Configuration whose wanted-tags list carries no `'#'`, matching
claim C5's described `#`-stripped comparison. -/
def cfg5 : Config := { srcConfig with my_actor := "A", wanted_tags := ["cats"] }

/-- A post owned by "A", not a reply, tagged `#Cats`, whose title does
not start with "RE: ": under claim C5's comparison (case-insensitive and
`#`-stripped) its tag set intersects `["cats"]`. -/
def r5 : PyVal :=
  PyVal.dict [("actor", PyVal.str "A"),
    ("object", PyVal.dict [("id", PyVal.str "1"), ("attributedTo", PyVal.str "A"),
      ("content", PyVal.str "<p>x</p>"),
      ("tag", PyVal.list [PyVal.dict [("type", PyVal.str "Hashtag"),
                                      ("name", PyVal.str "#Cats")]])])]

/-- Object of the witness record for the amended C5. -/
def obj5w : PyVal :=
  PyVal.dict [("id", PyVal.str "1"), ("attributedTo", PyVal.str "A"),
    ("content", PyVal.str "<p>x</p>"),
    ("tag", PyVal.list [PyVal.dict [("type", PyVal.str "Hashtag"),
                                    ("name", PyVal.str "#cats")]])]

/-- Witness record for the amended C5: owned by "A", tagged `#cats`. -/
def r5w : PyVal := PyVal.dict [("actor", PyVal.str "A"), ("object", obj5w)]

/-- The activity of claim C2 exactly as the claim states it (note:
`published` appears only inside the object). -/
def exC2claim : PyVal :=
  PyVal.dict [("actor", PyVal.str "A"),
    ("object", PyVal.dict [("id", PyVal.str "1"), ("attributedTo", PyVal.str "A"),
      ("content", PyVal.str "<p>Hello world. More text</p>"),
      ("published", PyVal.str "2024-01-01T12:00:00+00:00"),
      ("tag", PyVal.list [PyVal.dict [("type", PyVal.str "Hashtag"),
                                      ("name", PyVal.str "#cats")]])])]

/-- The activity of claim C2 with `published` additionally present at
the record's top level, which is where the code reads it. -/
def exC2fixed : PyVal :=
  PyVal.dict [("actor", PyVal.str "A"),
    ("published", PyVal.str "2024-01-01T12:00:00+00:00"),
    ("object", PyVal.dict [("id", PyVal.str "1"), ("attributedTo", PyVal.str "A"),
      ("content", PyVal.str "<p>Hello world. More text</p>"),
      ("published", PyVal.str "2024-01-01T12:00:00+00:00"),
      ("tag", PyVal.list [PyVal.dict [("type", PyVal.str "Hashtag"),
                                      ("name", PyVal.str "#cats")]])])]

/-- Record for the C3 counterexample: a post tagged `#Cats` (mixed
case). -/
def exC3 : PyVal :=
  PyVal.dict [("actor", PyVal.str "A"),
    ("published", PyVal.str "2024-01-01T12:00:00+00:00"),
    ("object", PyVal.dict [("id", PyVal.str "1"), ("attributedTo", PyVal.str "A"),
      ("content", PyVal.str "<p>x</p>"),
      ("tag", PyVal.list [PyVal.dict [("type", PyVal.str "Hashtag"),
                                      ("name", PyVal.str "#Cats")]])])]

/-- Record for the C4 counterexample: passes the shape guard (a dict
with a dict `object`) but has no `actor` key. -/
def exC4 : PyVal := PyVal.dict [("object", PyVal.dict [("id", PyVal.str "1")])]

/-- A tag entry the collection loop can process without raising: a dict
with a `type` key, and — when the type is `Hashtag` — a string `name`. -/
def TagEntryOk (t : PyVal) : Prop :=
  ∃ kvs, t = PyVal.dict kvs ∧
    ∃ ty, lookupKV kvs "type" = Option.some ty ∧
      (ty = PyVal.str "Hashtag" → ∃ nm, lookupKV kvs "name" = Option.some (PyVal.str nm))

/-- A `tag` field `get_post_tags` can process without raising: absent,
present but not a list, or a list of processable entries. -/
def TagsOk (obj : PyVal) : Prop :=
  hasKeyB obj "tag" = false ∨
  (∃ tv, pyGet obj "tag" = Except.ok tv ∧ tv.isList = false) ∨
  (∃ tl, pyGet obj "tag" = Except.ok (PyVal.list tl) ∧ ∀ t ∈ tl, TagEntryOk t)

/-- A record on which the selection check resolves without an exception:
either it fails the shape guard, or every key the check dereferences is
present with a usable type up to the first rejection. -/
def WellKeyed (cfg : Config) (r : PyVal) : Prop :=
  recordShapeOk r = false ∨
  ∃ obj, pyGet r "object" = Except.ok obj ∧
    ((∃ v, pyGet r "actor" = Except.ok v ∧ v ≠ PyVal.str cfg.my_actor) ∨
     (pyGet r "actor" = Except.ok (PyVal.str cfg.my_actor) ∧
      ((∃ w, pyGet obj "attributedTo" = Except.ok w ∧ w ≠ PyVal.str cfg.my_actor) ∨
       (pyGet obj "attributedTo" = Except.ok (PyVal.str cfg.my_actor) ∧
        (truthyKey obj "inReplyTo" = true ∨
         (TagsOk obj ∧ ∃ cstr, pyGet obj "content" = Except.ok (PyVal.str cstr)))))))

/-- Path-membership monotonicity between filesystems: every file of the
first exists in the second. -/
def FSle (fs fs2 : FS) : Prop := ∀ p, hasFile fs p = true → hasFile fs2 p = true

/-- Does the path lie under the `./_posts/` directory of the source
configuration? -/
def isPostsPath (p : String) : Bool := startsWithList "./_posts/".data p.data

/-- The contents of every post-directory path agree between the two
filesystems. -/
def PostsPreserved (fs fs2 : FS) : Prop :=
  ∀ p, isPostsPath p = true → getFile fs2 p = getFile fs p

/-- Root record of the C6 witness archive: an accepted post with one
reply. -/
def rootC6 : PyVal :=
  PyVal.dict [("actor", PyVal.str "A"),
    ("published", PyVal.str "2024-01-01T12:00:00+00:00"),
    ("object", PyVal.dict [("id", PyVal.str "1"), ("attributedTo", PyVal.str "A"),
      ("content", PyVal.str "<p>Hello world. More text</p>"),
      ("url", PyVal.str "https://example.com/1"),
      ("tag", PyVal.list [PyVal.dict [("type", PyVal.str "Hashtag"),
                                      ("name", PyVal.str "#cats")]]),
      ("replies", PyVal.dict [("first",
        PyVal.dict [("items", PyVal.list [PyVal.str "2"])])])])]

/-- Reply record of the C6 witness archive. -/
def replyC6 : PyVal :=
  PyVal.dict [("actor", PyVal.str "A"),
    ("object", PyVal.dict [("id", PyVal.str "2"), ("attributedTo", PyVal.str "A"),
      ("content", PyVal.str "<p>Reply here</p>")])]

/-- The filesystem after the first C6 witness run: the one generated
post file. -/
def fsC6 : FS :=
  [("./_posts/2024-01-01-hello-world.markdown",
    "---\nlayout: single\npublished: false\ntitle: Hello world\ndate: 2024-01-01 07:00:00 -0500\nexcerpt: \"...\"\ncategories:\n- cats\ntags: [cats]\n---\n\n<p>Hello world. More text</p>\n\n<p>Reply here</p>\n\n[Imported from Mastodon](https://example.com/1)\n\n")]

/- ========== Theorems ========== -/

theorem startsWithList_length : ∀ p cs, startsWithList p cs = true →
    p.length ≤ cs.length := by
  intro p
  induction p with
  | nil => intro cs _; simp
  | cons x xs ih =>
      intro cs h
      cases cs with
      | nil => simp [startsWithList] at h
      | cons c cs =>
          simp only [startsWithList, Bool.and_eq_true] at h
          have := ih cs h.2
          simp; omega

theorem exceptBind_ok {α β : Type} (a : α) (f : α → Except PyErr β) :
    (Except.ok a >>= f) = f a := rfl

theorem exceptBind_err {α β : Type} (e : PyErr) (f : α → Except PyErr β) :
    ((Except.error e : Except PyErr α) >>= f) = Except.error e := rfl

theorem beq_str_iff (v : PyVal) (s : String) :
    PyVal.beq v (PyVal.str s) = true ↔ v = PyVal.str s := by
  cases v <;> simp [PyVal.beq]

theorem liftE_ok {α β : Type} (a : α) (f : α → PyRes β) : liftE (Except.ok a) f = f a := rfl

theorem liftE_err {α β : Type} (e : PyErr) (f : α → PyRes β) :
    liftE (Except.error e) f = PyRes.exn e := rfl

theorem bindR_ok {α β : Type} (a : α) (f : α → PyRes β) : bindR (PyRes.ok a) f = f a := rfl

theorem liftE_ok_inv {α β : Type} (m : Except PyErr α) (f : α → PyRes β) (b : β)
    (h : liftE m f = PyRes.ok b) : ∃ a, m = Except.ok a ∧ f a = PyRes.ok b := by
  cases m with
  | error e => exact absurd h (by simp [liftE])
  | ok a => exact ⟨a, rfl, h⟩

theorem bindR_ok_inv {α β : Type} (m : PyRes α) (f : α → PyRes β) (b : β)
    (h : bindR m f = PyRes.ok b) : ∃ a, m = PyRes.ok a ∧ f a = PyRes.ok b := by
  cases m with
  | div => exact absurd h (by simp [bindR])
  | exn e => exact absurd h (by simp [bindR])
  | ok a => exact ⟨a, rfl, h⟩

theorem liftE_congr {α β : Type} (m : Except PyErr α) (f g : α → PyRes β)
    (h : ∀ a, f a = g a) : liftE m f = liftE m g := by
  cases m with
  | error e => rfl
  | ok a => exact h a

theorem bindR_congr {α β : Type} (m m2 : PyRes α) (f g : α → PyRes β)
    (hm : m = m2) (h : ∀ a, f a = g a) : bindR m f = bindR m2 g := by
  subst hm
  cases m with
  | div => rfl
  | exn e => rfl
  | ok a => exact h a

theorem liftE_ne_div {α β : Type} (m : Except PyErr α) (f : α → PyRes β)
    (h : ∀ a, m = Except.ok a → f a ≠ PyRes.div) : liftE m f ≠ PyRes.div := by
  cases m with
  | error e => intro hd; exact PyRes.noConfusion hd
  | ok a => exact h a rfl

theorem bindR_ne_div {α β : Type} (m : PyRes α) (f : α → PyRes β)
    (hm : m ≠ PyRes.div) (h : ∀ a, m = PyRes.ok a → f a ≠ PyRes.div) :
    bindR m f ≠ PyRes.div := by
  cases m with
  | div => exact absurd rfl hm
  | exn e => intro hd; exact PyRes.noConfusion hd
  | ok a => exact h a rfl

theorem getItems_mkArchive (items : List PyVal) :
    getItems (mkArchive items) = Except.ok items := rfl

theorem find_mkArchive (cfg : Config) (items : List PyVal) (postid : PyVal) :
    find_post_by_id cfg (mkArchive items) postid = findLoop cfg items postid := rfl

/-- The first half of claim C1 at the `findLoop` level: a non-empty
result record has `actor` equal to the configured identity and an
`object` whose `attributedTo` equals it as well. -/
theorem findLoop_owned (cfg : Config) : ∀ (items : List PyVal) (postid p : PyVal),
    findLoop cfg items postid = Except.ok p → truthy p = true →
    pyGet p "actor" = Except.ok (PyVal.str cfg.my_actor) ∧
    ∃ o, pyGet p "object" = Except.ok o ∧
         pyGet o "attributedTo" = Except.ok (PyVal.str cfg.my_actor) := by
  intro items
  induction items with
  | nil =>
      intro postid p h ht
      simp only [findLoop, Except.ok.injEq] at h
      subst h
      simp [truthy] at ht
  | cons apost rest ih =>
      intro postid p h ht
      simp only [findLoop] at h
      split at h
      · exact ih postid p h ht
      · cases hA : pyGet apost "actor" with
        | error e => rw [hA, exceptBind_err] at h; exact absurd h (by simp)
        | ok actor =>
            rw [hA, exceptBind_ok] at h
            split at h
            · exact ih postid p h ht
            · rename_i hbeq
              cases hO : pyGet apost "object" with
              | error e => rw [hO, exceptBind_err] at h; exact absurd h (by simp)
              | ok obj =>
                  rw [hO, exceptBind_ok] at h
                  cases hT : pyGet obj "attributedTo" with
                  | error e => rw [hT, exceptBind_err] at h; exact absurd h (by simp)
                  | ok attrib =>
                      rw [hT, exceptBind_ok] at h
                      split at h
                      · exact ih postid p h ht
                      · rename_i hbeqT
                        cases hI : pyGet obj "id" with
                        | error e => rw [hI, exceptBind_err] at h; exact absurd h (by simp)
                        | ok idv =>
                            rw [hI, exceptBind_ok] at h
                            split at h
                            · simp only [Except.ok.injEq] at h
                              subst h
                              have ha : actor = PyVal.str cfg.my_actor :=
                                (beq_str_iff _ _).mp (by simpa using hbeq)
                              have hat : attrib = PyVal.str cfg.my_actor :=
                                (beq_str_iff _ _).mp (by simpa using hbeqT)
                              subst ha; subst hat
                              exact ⟨hA, obj, hO, hT⟩
                            · exact ih postid p h ht

/-- A non-owned record contributes nothing to the scan of `findLoop`. -/
theorem findLoop_skip_bad (cfg : Config) (bad : PyVal)
    (hbad : NonOwnedSkippable cfg bad) (rest : List PyVal) (postid : PyVal) :
    findLoop cfg (bad :: rest) postid = findLoop cfg rest postid := by
  rcases hbad with hsh | ⟨v, hv, hne⟩ | ⟨hv, o, w, ho, hw, hne⟩
  · simp [findLoop, hsh]
  · by_cases hsh : findShapeOk bad
    · simp only [findLoop, hsh, Bool.not_true]
      rw [hv, exceptBind_ok]
      simp [hne]
    · simp [findLoop, hsh]
  · by_cases hsh : findShapeOk bad
    · simp only [findLoop, hsh, Bool.not_true]
      rw [hv, exceptBind_ok]
      have hself : PyVal.beq (PyVal.str cfg.my_actor) (PyVal.str cfg.my_actor) = true := by
        simp [PyVal.beq]
      rw [hself]
      rw [if_neg (by simp)]
      rw [ho, exceptBind_ok, hw, exceptBind_ok]
      simp [hne]
    · simp [findLoop, hsh]

theorem findLoop_insert_bad (cfg : Config) (bad : PyVal)
    (hbad : NonOwnedSkippable cfg bad) :
    ∀ (a1 a2 : List PyVal) (postid : PyVal),
    findLoop cfg (a1 ++ bad :: a2) postid = findLoop cfg (a1 ++ a2) postid := by
  intro a1
  induction a1 with
  | nil => intro a2 postid; exact findLoop_skip_bad cfg bad hbad a2 postid
  | cons apost rest ih =>
      intro a2 postid
      simp only [List.cons_append, findLoop]
      split
      · exact ih a2 postid
      · cases pyGet apost "actor" with
        | error e => rfl
        | ok actor =>
            rw [exceptBind_ok, exceptBind_ok]
            split
            · exact ih a2 postid
            · cases pyGet apost "object" with
              | error e => rfl
              | ok obj =>
                  rw [exceptBind_ok, exceptBind_ok]
                  cases pyGet obj "attributedTo" with
                  | error e => rfl
                  | ok attrib =>
                      rw [exceptBind_ok, exceptBind_ok]
                      split
                      · exact ih a2 postid
                      · cases pyGet obj "id" with
                        | error e => rfl
                        | ok idv =>
                            rw [exceptBind_ok, exceptBind_ok]
                            split
                            · rfl
                            · exact ih a2 postid

/-- `repliesLoop` is a congruence in the reply resolver and the
recursive renderer. -/
theorem repliesLoop_congr (cfg : Config) (A B : PyVal)
    (f g : PyVal → FS → PyRes (String × FS))
    (hfind : ∀ rid, find_post_by_id cfg A rid = find_post_by_id cfg B rid)
    (hfg : ∀ p fs, f p fs = g p fs) :
    ∀ (items : List PyVal) (bt : String) (fs : FS),
    repliesLoop cfg A f items bt fs = repliesLoop cfg B g items bt fs := by
  intro items
  induction items with
  | nil => intro bt fs; rfl
  | cons rid rest ih =>
      intro bt fs
      simp only [repliesLoop]
      rw [← hfind rid]
      apply liftE_congr
      intro rp
      split
      · exact bindR_congr _ _ _ _ (hfg rp fs) (fun sf => ih _ _)
      · exact ih _ _

/-- `make_post_text` depends on the archive only through
`find_post_by_id`. -/
theorem make_post_text_congr (cfg : Config) (A B : PyVal)
    (hfind : ∀ rid, find_post_by_id cfg A rid = find_post_by_id cfg B rid) :
    ∀ (fuel : Nat) (post : PyVal) (fs : FS),
    make_post_text cfg A fuel post fs = make_post_text cfg B fuel post fs := by
  intro fuel
  induction fuel with
  | zero => intro post fs; rfl
  | succ n ih =>
      intro post fs
      simp only [make_post_text]
      split
      · rfl
      · apply liftE_congr
        intro c
        apply liftE_congr
        intro pr
        cases replyItemsOf post with
        | none => rfl
        | some items =>
            exact repliesLoop_congr cfg A B _ _ hfind ih items _ _

/-- C1: reply resolution never inlines a post not owned by the
configured identity.  (i) `find_post_by_id` returns a non-empty record
only when that record's `actor` and its object's `attributedTo` both
equal the configured identity.  (ii) `make_post_text` (renderThread) is
unchanged by inserting a non-owned record anywhere into the archive, so
a reply id resolving to another author's post is never inlined. -/
theorem claim_C1_reply_ownership :
    (∀ (cfg : Config) (archive postid p : PyVal),
       find_post_by_id cfg archive postid = Except.ok p → truthy p = true →
       pyGet p "actor" = Except.ok (PyVal.str cfg.my_actor) ∧
       ∃ o, pyGet p "object" = Except.ok o ∧
            pyGet o "attributedTo" = Except.ok (PyVal.str cfg.my_actor)) ∧
    (∀ (cfg : Config) (a1 a2 : List PyVal) (bad : PyVal) (fuel : Nat) (post : PyVal) (fs : FS),
       NonOwnedSkippable cfg bad →
       make_post_text cfg (mkArchive (a1 ++ bad :: a2)) fuel post fs
         = make_post_text cfg (mkArchive (a1 ++ a2)) fuel post fs) := by
  constructor
  · intro cfg archive postid p h ht
    unfold find_post_by_id at h
    cases hI : getItems archive with
    | error e => rw [hI, exceptBind_err] at h; exact absurd h (by simp)
    | ok items =>
        rw [hI, exceptBind_ok] at h
        exact findLoop_owned cfg items postid p h ht
  · intro cfg a1 a2 bad fuel post fs hbad
    apply make_post_text_congr
    intro rid
    rw [find_mkArchive, find_mkArchive]
    exact findLoop_insert_bad cfg bad hbad a1 a2 rid

/-- Witness for C1 at a concrete archive: the record found for id "1"
satisfies the ownership equations, and rendering is unchanged by
inserting a record owned by "B". -/
theorem claim_C1_witness :
    (pyGet exOwned "actor" = Except.ok (PyVal.str "A") ∧
     ∃ o, pyGet exOwned "object" = Except.ok o ∧
          pyGet o "attributedTo" = Except.ok (PyVal.str "A")) ∧
    make_post_text cfgA (mkArchive [exOwned, exBad]) 2 (PyVal.dict []) []
      = make_post_text cfgA (mkArchive [exOwned]) 2 (PyVal.dict []) [] := by
  constructor
  · exact claim_C1_reply_ownership.1 cfgA (mkArchive [exOwned, exBad])
      (PyVal.str "1") exOwned (by rfl) (by rfl)
  · exact claim_C1_reply_ownership.2 cfgA [exOwned] [] exBad 2 (PyVal.dict []) []
      (Or.inr (Or.inl ⟨PyVal.str "B", rfl, rfl⟩))

theorem ok_ne_div {α : Type} (a : α) : PyRes.ok a ≠ PyRes.div :=
  fun h => PyRes.noConfusion h

theorem exn_ne_div {α : Type} (e : PyErr) : (PyRes.exn e : PyRes α) ≠ PyRes.div :=
  fun h => PyRes.noConfusion h

/-- If the recursive renderer terminates on every resolved reply of the
list, the replies loop terminates. -/
theorem repliesLoop_ne_div (cfg : Config) (archive : PyVal)
    (f : PyVal → FS → PyRes (String × FS)) :
    ∀ (items : List PyVal),
    (∀ rid ∈ items, ∀ r, find_post_by_id cfg archive rid = Except.ok r →
       truthy r = true → ∀ fs, f r fs ≠ PyRes.div) →
    ∀ (bt : String) (fs : FS), repliesLoop cfg archive f items bt fs ≠ PyRes.div := by
  intro items
  induction items with
  | nil => intro _ bt fs; exact ok_ne_div _
  | cons rid rest ih =>
      intro hf bt fs
      simp only [repliesLoop]
      apply liftE_ne_div
      intro rp hF
      split
      · rename_i htr
        apply bindR_ne_div
        · exact hf rid (by simp) rp hF htr fs
        · intro sf _
          exact ih (fun rid2 hm2 => hf rid2 (by simp [hm2])) _ _
      · exact ih (fun rid2 hm2 => hf rid2 (by simp [hm2])) _ _

/-- C10: `renderThread` terminates on archives whose reply-reference
graph is acyclic.  Acyclicity is witnessed by a measure `m` that strictly
decreases along every `replyEdge`; with fuel exceeding the measure of the
starting post, `make_post_text` does not exhaust its fuel. -/
theorem claim_C10_renderThread_terminates (cfg : Config) (archive : PyVal)
    (m : PyVal → Nat)
    (hm : ∀ p r, replyEdge cfg archive p r → m r < m p) :
    ∀ (n : Nat) (post : PyVal) (fs : FS), m post < n →
    make_post_text cfg archive n post fs ≠ PyRes.div := by
  intro n
  induction n using Nat.strong_induction_on with
  | _ n ih =>
      intro post fs hlt
      cases n with
      | zero => omega
      | succ k =>
          simp only [make_post_text]
          split
          · exact ok_ne_div _
          · apply liftE_ne_div
            intro c _
            apply liftE_ne_div
            intro pr _
            cases hRI : replyItemsOf post with
            | none => exact ok_ne_div _
            | some items =>
                apply repliesLoop_ne_div
                intro rid hmem r hfind htr fs2
                apply ih k (Nat.lt_succ_self k) r fs2
                have hdec := hm post r ⟨items, rid, hRI, hmem, hfind, htr⟩
                omega

/-- Witness for C10: on an archive with no reply edges (every lookup
returns the empty record), the constant-zero measure is decreasing, and
the renderer terminates with any positive fuel. -/
theorem claim_C10_witness :
    make_post_text cfgA (mkArchive []) 1 (PyVal.dict []) [] ≠ PyRes.div := by
  apply claim_C10_renderThread_terminates cfgA (mkArchive []) (fun _ => 0)
  · intro p r hedge
    obtain ⟨items, rid, _, _, hfind, htr⟩ := hedge
    rw [find_mkArchive] at hfind
    simp only [findLoop, Except.ok.injEq] at hfind
    subst hfind
    simp [truthy] at htr
  · exact Nat.zero_lt_one

theorem swAux_invariant : ∀ cs : List Char,
    NoWsL (swAux cs).1 ∧ ∀ w ∈ (swAux cs).2, NoWsL w ∧ w ≠ [] := by
  intro cs
  induction cs with
  | nil =>
      exact ⟨fun c hc => absurd hc (by simp [swAux]), fun w hw => absurd hw (by simp [swAux])⟩
  | cons c cs ih =>
      simp only [swAux]
      split
      · rename_i hws
        refine ⟨fun c hc => absurd hc (by simp), ?_⟩
        intro w hw
        split at hw
        · exact ih.2 w hw
        · rename_i hne
          rcases List.mem_cons.mp hw with h1 | h1
          · subst h1
            exact ⟨ih.1, by simpa using hne⟩
          · exact ih.2 w h1
      · rename_i hws
        refine ⟨?_, ih.2⟩
        intro d hd
        rcases List.mem_cons.mp hd with h1 | h1
        · subst h1; simpa using hws
        · exact ih.1 d h1

theorem splitWs_tokens : ∀ (cs : List Char) (w : List Char),
    w ∈ splitWs cs → NoWsL w ∧ w ≠ [] := by
  intro cs w hw
  have hinv := swAux_invariant cs
  simp only [splitWs] at hw
  split at hw
  · exact hinv.2 w hw
  · rename_i hne
    rcases List.mem_cons.mp hw with h1 | h1
    · subst h1; exact ⟨hinv.1, by simpa using hne⟩
    · exact hinv.2 w h1

theorem swAux_ws_cons (c : Char) (cs : List Char) (hc : c.isWhitespace = true) :
    swAux (c :: cs) = ([], splitWs cs) := by
  simp [swAux, splitWs, hc]

theorem swAux_nonws_cons (c : Char) (cs : List Char) (hc : c.isWhitespace = false) :
    swAux (c :: cs) = (c :: (swAux cs).1, (swAux cs).2) := by
  simp [swAux, hc]

theorem swAux_token_append : ∀ (w cs : List Char), NoWsL w →
    swAux (w ++ cs) = (w ++ (swAux cs).1, (swAux cs).2) := by
  intro w
  induction w with
  | nil => intro cs _; simp
  | cons c w ih =>
      intro cs hno
      have hc : c.isWhitespace = false := hno c (by simp)
      rw [List.cons_append, swAux_nonws_cons c (w ++ cs) hc,
          ih cs (fun d hd => hno d (by simp [hd]))]
      simp

theorem splitWs_ws_cons (c : Char) (cs : List Char) (hc : c.isWhitespace = true) :
    splitWs (c :: cs) = splitWs cs := by
  simp [splitWs, swAux_ws_cons c cs hc]

theorem splitWs_token_space (w cs : List Char) (hw : NoWsL w) (hne : w ≠ []) :
    splitWs (w ++ ' ' :: cs) = w :: splitWs cs := by
  have h1 : swAux (w ++ ' ' :: cs) = (w, splitWs cs) := by
    rw [swAux_token_append w (' ' :: cs) hw, swAux_ws_cons ' ' cs (by simp)]
    simp
  simp [splitWs, h1, hne]

theorem splitWs_token (w : List Char) (hw : NoWsL w) :
    splitWs w = if w.isEmpty then [] else [w] := by
  have h1 : swAux w = (w, []) := by
    have h2 := swAux_token_append w [] hw
    simp only [swAux, List.append_nil] at h2
    exact h2
  simp only [splitWs, h1]

theorem joinSpace_cons (w : List Char) (ws : List (List Char)) :
    joinSpace (w :: ws) = if ws.isEmpty then w else w ++ ' ' :: joinSpace ws := by
  cases ws <;> rfl

/-- Splitting the space-join of whitespace-free words recovers exactly
the non-empty words. -/
theorem splitWs_joinSpace : ∀ ws : List (List Char), (∀ w ∈ ws, NoWsL w) →
    splitWs (joinSpace ws) = ws.filter (fun w => !w.isEmpty) := by
  intro ws
  induction ws with
  | nil => intro _; rfl
  | cons w ws ih =>
      intro hno
      rw [joinSpace_cons]
      cases ws with
      | nil =>
          simp only [List.isEmpty_nil, if_true]
          rw [splitWs_token w (hno w (by simp))]
          cases w <;> simp
      | cons w2 ws2 =>
          rw [if_neg (by simp)]
          by_cases hw : w = []
          · subst hw
            simp only [List.nil_append]
            rw [splitWs_ws_cons ' ' _ (by simp)]
            rw [ih (fun d hd => hno d (by simp [hd]))]
            simp
          · rw [splitWs_token_space w _ (hno w (by simp)) hw]
            rw [ih (fun d hd => hno d (by simp [hd]))]
            have : w.isEmpty = false := by
              cases w
              · exact absurd rfl hw
              · rfl
            simp [this]

/-- Appending text never decreases the `str.split()` token count (joint
statement about `splitWs` and the completed tokens of `swAux`). -/
theorem splitWs_append_mono : ∀ a b : List Char,
    (splitWs a).length ≤ (splitWs (a ++ b)).length ∧
    (swAux a).2.length ≤ (swAux (a ++ b)).2.length := by
  intro a
  induction a with
  | nil =>
      intro b
      constructor
      · simp [splitWs, swAux]
      · simp [swAux]
  | cons c a ih =>
      intro b
      by_cases hc : c.isWhitespace
      · have e1 := splitWs_ws_cons c a hc
        have e2 := splitWs_ws_cons c (a ++ b) hc
        have e3 := swAux_ws_cons c a hc
        have e4 := swAux_ws_cons c (a ++ b) hc
        constructor
        · rw [e1, List.cons_append, e2]; exact (ih b).1
        · rw [e3, List.cons_append, e4]; simpa using (ih b).1
      · have hc2 : c.isWhitespace = false := by simpa using hc
        have e1 := swAux_nonws_cons c a hc2
        have e2 := swAux_nonws_cons c (a ++ b) hc2
        constructor
        · have l1 : splitWs (c :: a) = (c :: (swAux a).1) :: (swAux a).2 := by
            simp [splitWs, e1]
          have l2 : splitWs (c :: (a ++ b)) = (c :: (swAux (a ++ b)).1) :: (swAux (a ++ b)).2 := by
            simp [splitWs, e2]
          rw [List.cons_append, l1, l2]
          simp only [List.length_cons]
          have := (ih b).2
          omega
        · rw [e1, List.cons_append, e2]
          simpa using (ih b).2

/-- `rstrip` removes a (whole-character) suffix: the original string is
the stripped string followed by the dropped trailing characters. -/
theorem pyRstrip_append (chars cs : List Char) :
    pyRstrip chars cs ++ (cs.reverse.takeWhile (fun c => chars.contains c)).reverse = cs := by
  unfold pyRstrip
  rw [← List.reverse_append, List.takeWhile_append_dropWhile, List.reverse_reverse]

/-- Every word assembled by the title loop is the cleaned form of an
input word. -/
theorem buildTitle_mem : ∀ (ws : List (List Char)) (w : List Char),
    w ∈ buildTitle ws → ∃ w0 ∈ ws, w = cleanWord w0 := by
  intro ws
  induction ws with
  | nil => intro w hw; simp [buildTitle] at hw
  | cons w0 ws ih =>
      intro w hw
      simp only [buildTitle] at hw
      split at hw
      · rcases List.mem_singleton.mp hw with h
        exact ⟨w0, by simp, h⟩
      · rcases List.mem_cons.mp hw with h | h
        · exact ⟨w0, by simp, h⟩
        · obtain ⟨w1, hmem, heq⟩ := ih w h
          exact ⟨w1, by simp [hmem], heq⟩

theorem buildTitle_length_le : ∀ ws : List (List Char),
    (buildTitle ws).length ≤ ws.length := by
  intro ws
  induction ws with
  | nil => simp [buildTitle]
  | cons w0 ws ih =>
      simp only [buildTitle]
      split
      · simp
      · simp only [List.length_cons]
        omega

/-- The title loop stops (inclusively) at any word whose cleaned form
ends the early-stop test. -/
theorem buildTitle_stop : ∀ (ws : List (List Char)) (i : Nat) (hi : i < ws.length),
    (endsWithChar '.' (cleanWord (ws.get ⟨i, hi⟩))
      || endsWithChar '\n' (cleanWord (ws.get ⟨i, hi⟩))) = true →
    (buildTitle ws).length ≤ i + 1 := by
  intro ws
  induction ws with
  | nil => intro i hi; simp at hi
  | cons w0 ws ih =>
      intro i hi hstop
      cases i with
      | zero =>
          simp only [List.get] at hstop
          simp [buildTitle, hstop]
      | succ j =>
          simp only [buildTitle]
          split
          · simp only [List.length_singleton]; omega
          · simp only [List.length_cons]
            have := ih j (by simpa using hi) (by simpa using hstop)
            omega

/-- Cleaning a word preserves a trailing character that the cleaning
does not remove. -/
theorem cleanWord_endsWith (ch : Char) (hch : titleDropChars.contains ch = false) :
    ∀ w : List Char, endsWithChar ch w = true → endsWithChar ch (cleanWord w) = true := by
  intro w hw
  simp only [endsWithChar, beq_iff_eq] at hw
  obtain ⟨w1, rfl⟩ := List.getLast?_eq_some_iff.mp hw
  simp only [cleanWord, List.filter_append]
  have : List.filter (fun c => !titleDropChars.contains c) [ch] = [ch] := by
    rw [List.filter_cons, hch]
    simp
  rw [this]
  simp [endsWithChar, List.getLast?_concat]

theorem cleanWord_noWs (w : List Char) (hw : NoWsL w) : NoWsL (cleanWord w) := by
  intro c hc
  exact hw c (List.mem_of_mem_filter hc)

/-- A whitespace-free word never ends in a newline. -/
theorem noWs_not_endsWith_newline (w : List Char) (hw : NoWsL w) :
    endsWithChar '\n' w = false := by
  cases hg : w.getLast? with
  | none => simp [endsWithChar, hg]
  | some c =>
      obtain ⟨w1, rfl⟩ := List.getLast?_eq_some_iff.mp hg
      have hc : c.isWhitespace = false := hw c (by simp)
      have : c ≠ '\n' := by
        intro h; subst h; simp [Char.isWhitespace] at hc
      simp [endsWithChar, hg, this]

theorem firstWords_noWs (cfg : Config) (c : String) :
    ∀ w ∈ firstWords cfg c, NoWsL w := by
  intro w hw
  exact (splitWs_tokens (plainTextOf c) w (List.mem_of_mem_take hw)).1

theorem buildTitle_firstWords_noWs (cfg : Config) (c : String) :
    ∀ w ∈ buildTitle (firstWords cfg c), NoWsL w := by
  intro w hw
  obtain ⟨w0, hmem, rfl⟩ := buildTitle_mem _ w hw
  exact cleanWord_noWs w0 (firstWords_noWs cfg c w0 hmem)

/-- C7: the derived title has at most `max_title_words`
whitespace-delimited tokens, and the word-assembly loop stops (inclusive
of the stopping token) at the first token ending in `'.'` or a newline
character. -/
theorem claim_C7_title_bounds (cfg : Config) (r : PyVal) (c : String)
    (hc : contentStr r = Except.ok c) :
    make_post_title cfg r = Except.ok (titleFromContent cfg c) ∧
    (splitWs (titleFromContent cfg c).data).length ≤ cfg.max_title_words ∧
    ∀ (i : Nat) (hi : i < (firstWords cfg c).length),
      (endsWithChar '.' ((firstWords cfg c).get ⟨i, hi⟩)
        || endsWithChar '\n' ((firstWords cfg c).get ⟨i, hi⟩)) = true →
      (buildTitle (firstWords cfg c)).length ≤ i + 1 := by
  refine ⟨?_, ?_, ?_⟩
  · unfold make_post_title
    rw [hc, exceptBind_ok]
  · have hNoWs := buildTitle_firstWords_noWs cfg c
    have hdata : (titleFromContent cfg c).data
        = pyRstrip punctuationChars (joinSpace (buildTitle (firstWords cfg c))) := rfl
    rw [hdata]
    have h1 := (splitWs_append_mono
      (pyRstrip punctuationChars (joinSpace (buildTitle (firstWords cfg c))))
      (((joinSpace (buildTitle (firstWords cfg c))).reverse.takeWhile
          (fun ch => punctuationChars.contains ch)).reverse)).1
    rw [pyRstrip_append] at h1
    rw [splitWs_joinSpace _ hNoWs] at h1
    have h2 := List.length_filter_le (fun w => !w.isEmpty) (buildTitle (firstWords cfg c))
    have h3 := buildTitle_length_le (firstWords cfg c)
    have h4 : (firstWords cfg c).length ≤ cfg.max_title_words := by
      simpa [firstWords] using List.length_take_le cfg.max_title_words (splitWs (plainTextOf c))
    omega
  · intro i hi hstop
    apply buildTitle_stop (firstWords cfg c) i hi
    rw [Bool.or_eq_true]
    rcases Bool.or_eq_true _ _ |>.mp hstop with h | h
    · exact Or.inl (cleanWord_endsWith '.' (by rfl) _ h)
    · exact Or.inr (cleanWord_endsWith '\n' (by rfl) _ h)

/-- Witness for C7 at a concrete post whose content stops the title at
"sentence." (token 1 of 4). -/
theorem claim_C7_witness :
    make_post_title srcConfig
        (PyVal.dict [("object", PyVal.dict [("content", PyVal.str "A sentence. More words here")])])
      = Except.ok (titleFromContent srcConfig "A sentence. More words here") ∧
    (splitWs (titleFromContent srcConfig "A sentence. More words here").data).length
      ≤ srcConfig.max_title_words ∧
    ∀ (i : Nat) (hi : i < (firstWords srcConfig "A sentence. More words here").length),
      (endsWithChar '.' ((firstWords srcConfig "A sentence. More words here").get ⟨i, hi⟩)
        || endsWithChar '\n' ((firstWords srcConfig "A sentence. More words here").get ⟨i, hi⟩)) = true →
      (buildTitle (firstWords srcConfig "A sentence. More words here")).length ≤ i + 1 :=
  claim_C7_title_bounds srcConfig
    (PyVal.dict [("object", PyVal.dict [("content", PyVal.str "A sentence. More words here")])])
    "A sentence. More words here" (by rfl)

theorem buildTitle_eq_noNewline : ∀ ws : List (List Char), (∀ w ∈ ws, NoWsL w) →
    buildTitle ws = buildTitleNoNewline ws := by
  intro ws
  induction ws with
  | nil => intro _; rfl
  | cons w0 ws ih =>
      intro hno
      have hnl : endsWithChar '\n' (cleanWord w0) = false :=
        noWs_not_endsWith_newline _ (cleanWord_noWs w0 (hno w0 (by simp)))
      simp only [buildTitle, buildTitleNoNewline, hnl, Bool.or_false]
      split
      · rfl
      · rw [ih (fun d hd => hno d (by simp [hd]))]

/-- C9: the ends-with-newline early-stop in `make_post_title` is
unreachable — tokens come from whitespace splitting and so never end in
a newline; the function equals its variant with the test removed. -/
theorem claim_C9_newline_test_unreachable (cfg : Config) (r : PyVal) :
    make_post_title cfg r = make_post_title_noNewline cfg r := by
  unfold make_post_title make_post_title_noNewline
  cases hc : contentStr r with
  | error e => rfl
  | ok c =>
      rw [exceptBind_ok, exceptBind_ok]
      have : titleFromContent cfg c = titleFromContentNoNewline cfg c := by
        unfold titleFromContent titleFromContentNoNewline
        rw [buildTitle_eq_noNewline _ (firstWords_noWs cfg c)]
      rw [this]

/-- Counterexample to C5 as stated: `r5` satisfies every hypothesis of
the claim under its own comparison (the tag `#Cats`, `#`-stripped and
case-folded, equals the configured `cats`), yet the selector rejects the
post — the code compares the lowercased tag with its `'#'` retained
(`"#cats"`) against the configured list literally, finding no
intersection. -/
theorem claim_C5_counterexample :
    is_exportable cfg5 r5 = Except.ok false ∧
    get_post_tags r5 true false = Except.ok ["#cats"] ∧
    lowerStr (String.mk (pyLstrip ['#'] "#Cats".data)) = "cats" := by
  refine ⟨rfl, rfl, rfl⟩

/-- C5, amended: the comparison is case-insensitive on the post's tags
(they are lowercased) but retains their leading `'#'`; the configured
list is compared literally.  Under that comparison, every owned
non-reply post with intersecting tags and a title not starting with
"RE: " is accepted. -/
theorem claim_C5_selector_accepts (cfg : Config) (r obj : PyVal)
    (pts : List String) (ttl : String)
    (hsh : recordShapeOk r = true)
    (hact : pyGet r "actor" = Except.ok (PyVal.str cfg.my_actor))
    (hobj : pyGet r "object" = Except.ok obj)
    (hattr : pyGet obj "attributedTo" = Except.ok (PyVal.str cfg.my_actor))
    (hreply : truthyKey obj "inReplyTo" = false)
    (htags : get_post_tags r true false = Except.ok pts)
    (hwne : cfg.wanted_tags ≠ [])
    (hint : setIntersects cfg.wanted_tags pts = true)
    (htitle : make_post_title cfg r = Except.ok ttl)
    (hre : pyStartsWith "RE: " ttl = false) :
    is_exportable cfg r = Except.ok true := by
  have hselfbeq : PyVal.beq (PyVal.str cfg.my_actor) (PyVal.str cfg.my_actor) = true := by
    simp [PyVal.beq]
  have hptse : pts.isEmpty = false := by
    obtain ⟨x, hxmem, hxcont⟩ := List.any_eq_true.mp hint
    cases pts with
    | nil => simp [List.contains] at hxcont
    | cons a l => rfl
  unfold is_exportable
  rw [hsh]
  rw [if_neg (by simp)]
  rw [hact, exceptBind_ok, hselfbeq]
  rw [if_neg (by simp)]
  rw [hobj, exceptBind_ok, hattr, exceptBind_ok, hselfbeq]
  rw [if_neg (by simp), if_neg (by simp [hreply])]
  rw [htags, exceptBind_ok]
  rw [if_neg (by simp [hptse]), if_neg (by simp [hint])]
  rw [htitle, exceptBind_ok]
  rw [if_neg (by simp [hre])]

/-- Witness for the amended C5 at a concrete accepted post. -/
theorem claim_C5_witness : is_exportable cfgA r5w = Except.ok true :=
  claim_C5_selector_accepts cfgA r5w obj5w ["#cats"] "x"
    (by rfl) (by rfl) (by rfl) (by rfl) (by rfl) (by rfl)
    (by intro h; exact absurd h (by simp [cfgA, srcConfig]))
    (by rfl) (by rfl) (by rfl)

/-- Counterexample to C2 as stated: on the claim's own record the
derived title is `"Hello world"` — not `"Hello world."`, because
`make_post_title` strips trailing punctuation from the joined title —
and filename derivation raises `KeyError: 'published'`, because
`make_post_filename` reads `post['published']` at the record's top
level, which the claim's record lacks. -/
theorem claim_C2_counterexample :
    make_post_title cfgA exC2claim = Except.ok "Hello world" ∧
    "Hello world" ≠ "Hello world." ∧
    make_post_filename cfgA exC2claim = Except.error (PyErr.keyError "published") := by
  refine ⟨rfl, by decide, rfl⟩

/-- C2, amended: with `published` also present at the record's top
level, the selector accepts the record, the derived title is
`"Hello world"` (trailing period stripped), and the derived filename is
`./_posts/2024-01-01-hello-world.markdown`, which ends with
`2024-01-01-hello-world.markdown`. -/
theorem claim_C2_example_run :
    is_exportable cfgA exC2fixed = Except.ok true ∧
    make_post_title cfgA exC2fixed = Except.ok "Hello world" ∧
    make_post_filename cfgA exC2fixed
      = Except.ok "./_posts/2024-01-01-hello-world.markdown" ∧
    strEndsWith "2024-01-01-hello-world.markdown"
        "./_posts/2024-01-01-hello-world.markdown" = true := by
  refine ⟨rfl, rfl, rfl, rfl⟩

/-- Counterexample to C3 as stated: the front matter renders the tag
`#Cats` as `Cats` in both the categories block and the tags line — the
leading `#` is stripped but the tag is NOT lowercased
(`make_front_matter` calls `get_post_tags(post, False, True)`, passing
`lowercase=False`). -/
theorem claim_C3_counterexample :
    make_front_matter cfgA exC3 = Except.ok
      ("---\nlayout: single\npublished: false\ntitle: x\ndate: 2024-01-01 07:00:00 -0500\nexcerpt: \"...\"\ncategories:\n- Cats\ntags: [Cats]\n---\n") ∧
    get_post_tags exC3 false true = Except.ok ["Cats"] ∧
    ["Cats"] ≠ ["cats"] := by
  refine ⟨rfl, rfl, by decide⟩

theorem dropWhile_head_false (p : Char → Bool) : ∀ (l : List Char) (c : Char) (rest : List Char),
    l.dropWhile p = c :: rest → p c = false := by
  intro l
  induction l with
  | nil => intro c rest h; simp [List.dropWhile] at h
  | cons a l ih =>
      intro c rest h
      rw [List.dropWhile_cons] at h
      split at h
      · exact ih c rest h
      · rename_i hp
        obtain ⟨h1, _⟩ := List.cons.injEq a l c rest ▸ h
        subst h1
        simpa using hp

theorem pyLstrip_hash_no_hash (cs : List Char) :
    pyStartsWith "#" (String.mk (pyLstrip ['#'] cs)) = false := by
  unfold pyStartsWith pyLstrip
  cases hd : cs.dropWhile (fun c => List.contains ['#'] c) with
  | nil => rfl
  | cons c rest =>
      have hc := dropWhile_head_false _ cs c rest hd
      have hne : c ≠ '#' := by simpa using hc
      simp [startsWithList, hne, Ne.symm hne]

/-- Tags collected with `removeoctothorpe=True` never start with
`'#'`. -/
theorem collectTags_no_hash (lc : Bool) : ∀ (tl : List PyVal) (ts : List String),
    collectTags tl lc true = Except.ok ts →
    ∀ t ∈ ts, pyStartsWith "#" t = false := by
  intro tl
  induction tl with
  | nil =>
      intro ts h t ht
      simp only [collectTags, Except.ok.injEq] at h
      subst h
      simp at ht
  | cons t0 tl ih =>
      intro ts h t ht
      simp only [collectTags] at h
      cases hty : pyGet t0 "type" with
      | error e => rw [hty, exceptBind_err] at h; exact absurd h (by simp)
      | ok ty =>
          rw [hty, exceptBind_ok] at h
          split at h
          · cases hnm : pyGet t0 "name" with
            | error e => rw [hnm, exceptBind_err] at h; exact absurd h (by simp)
            | ok nmv =>
                rw [hnm, exceptBind_ok] at h
                cases hs : tagNameStr nmv with
                | error e => rw [hs, exceptBind_err] at h; exact absurd h (by simp)
                | ok nm0 =>
                    rw [hs, exceptBind_ok] at h
                    cases hrest : collectTags tl lc true with
                    | error e => rw [hrest, exceptBind_err] at h; exact absurd h (by simp)
                    | ok rest =>
                        rw [hrest, exceptBind_ok] at h
                        simp only [if_true, Except.ok.injEq] at h
                        subst h
                        rcases List.mem_cons.mp ht with h1 | h1
                        · subst h1
                          exact pyLstrip_hash_no_hash _
                        · exact ih rest hrest t h1
          · exact ih ts h t ht

theorem get_post_tags_no_hash (r : PyVal) (lc : Bool) (ts : List String)
    (h : get_post_tags r lc true = Except.ok ts) :
    ∀ t ∈ ts, pyStartsWith "#" t = false := by
  unfold get_post_tags at h
  cases ho : pyGet r "object" with
  | error e => rw [ho, exceptBind_err] at h; exact absurd h (by simp)
  | ok obj =>
      rw [ho, exceptBind_ok] at h
      cases hin : pyInDict obj "tag" with
      | error e => rw [hin, exceptBind_err] at h; exact absurd h (by simp)
      | ok tin =>
          rw [hin, exceptBind_ok] at h
          split at h
          · simp only [Except.ok.injEq] at h
            subst h
            intro t ht
            simp at ht
          · cases htv : pyGet obj "tag" with
            | error e => rw [htv, exceptBind_err] at h; exact absurd h (by simp)
            | ok tv =>
                rw [htv, exceptBind_ok] at h
                split at h
                · exact collectTags_no_hash lc _ ts h
                · simp only [Except.ok.injEq] at h
                  subst h
                  intro t ht
                  simp at ht

/-- C3, amended: the front matter renders the post's Hashtag tag set
twice — block-style under `categories` and inline under `tags` — both
renderings coming from the same single `get_post_tags(post, False,
True)` call, so the two lists hold the same values under the same
transform: leading `'#'` characters stripped, original case preserved
(NOT lowercased). -/
theorem claim_C3_front_matter_tags (cfg : Config) (r : PyVal)
    (title : String) (dt : PyDateTime) (ts : List String)
    (htitle : make_post_title cfg r = Except.ok title)
    (hdt : localDateTime cfg r = Except.ok dt)
    (htags : get_post_tags r false true = Except.ok ts) :
    make_front_matter cfg r = Except.ok
      ("---\n" ++ "layout: " ++ cfg.post_layout ++ "\n"
        ++ "published: " ++ (cond cfg.set_published "true" "false") ++ "\n"
        ++ "title: " ++ title ++ "\n"
        ++ "date: " ++ strfDateTime dt ++ "\n"
        ++ "excerpt: \"...\"\n"
        ++ "categories:\n" ++ yamlDumpBlock ts
        ++ "tags: " ++ yamlDumpFlow ts
        ++ "---\n") ∧
    ∀ t ∈ ts, pyStartsWith "#" t = false := by
  constructor
  · unfold make_front_matter
    rw [htitle, exceptBind_ok, hdt, exceptBind_ok, htags, exceptBind_ok]
  · exact get_post_tags_no_hash r false ts htags

/-- Witness for the amended C3 at the concrete record `exC3`. -/
theorem claim_C3_witness :
    make_front_matter cfgA exC3 = Except.ok
      ("---\n" ++ "layout: " ++ cfgA.post_layout ++ "\n"
        ++ "published: " ++ (cond cfgA.set_published "true" "false") ++ "\n"
        ++ "title: " ++ "x" ++ "\n"
        ++ "date: " ++ strfDateTime (PyDateTime.mk 2024 1 1 7 0 0 (-300)) ++ "\n"
        ++ "excerpt: \"...\"\n"
        ++ "categories:\n" ++ yamlDumpBlock ["Cats"]
        ++ "tags: " ++ yamlDumpFlow ["Cats"]
        ++ "---\n") ∧
    ∀ t ∈ ["Cats"], pyStartsWith "#" t = false :=
  claim_C3_front_matter_tags cfgA exC3 "x" (PyDateTime.mk 2024 1 1 7 0 0 (-300))
    ["Cats"] (by rfl) (by rfl) (by rfl)

/-- Counterexample to C4 as stated: on a record without an `actor` key
the selection check raises `KeyError: 'actor'` instead of resolving to
reject, and the exception aborts the whole run (`main` catches only
`ValueError`) instead of skipping to the next record. -/
theorem claim_C4_counterexample :
    is_exportable cfgA exC4 = Except.error (PyErr.keyError "actor") ∧
    runMain cfgA (mkArchive [exC4]) 1 [] = PyRes.exn (PyErr.keyError "actor") :=
  ⟨rfl, rfl⟩

theorem pyGet_ok_dict (v : PyVal) (k : String) (x : PyVal)
    (h : pyGet v k = Except.ok x) :
    ∃ kvs, v = PyVal.dict kvs ∧ lookupKV kvs k = Option.some x := by
  cases v <;> simp only [pyGet] at h
  case dict kvs =>
    cases hl : lookupKV kvs k with
    | none => rw [hl] at h; exact absurd h (by simp)
    | some y =>
        rw [hl] at h
        simp only [Except.ok.injEq] at h
        subst h
        exact ⟨kvs, rfl, hl⟩
  all_goals exact absurd h (by simp)

theorem collectTags_resolves (lc ro : Bool) : ∀ tl : List PyVal,
    (∀ t ∈ tl, TagEntryOk t) → ∃ ts, collectTags tl lc ro = Except.ok ts := by
  intro tl
  induction tl with
  | nil => intro _; exact ⟨[], rfl⟩
  | cons t0 tl ih =>
      intro hok
      obtain ⟨kvs, rfl, ty, hty, hname⟩ := hok t0 (by simp)
      obtain ⟨ts, hts⟩ := ih (fun t ht => hok t (by simp [ht]))
      have hget : pyGet (PyVal.dict kvs) "type" = Except.ok ty := by
        simp [pyGet, hty]
      by_cases hhash : PyVal.beq ty (PyVal.str "Hashtag") = true
      · obtain ⟨nm, hnm⟩ := hname ((beq_str_iff _ _).mp hhash)
        have hgetnm : pyGet (PyVal.dict kvs) "name" = Except.ok (PyVal.str nm) := by
          simp [pyGet, hnm]
        refine ⟨(if ro then String.mk (pyLstrip ['#'] (if lc then lowerStr nm else nm).data)
                 else if lc then lowerStr nm else nm) :: ts, ?_⟩
        simp only [collectTags]
        rw [hget, exceptBind_ok]
        rw [if_pos hhash]
        rw [hgetnm, exceptBind_ok]
        have hstr : tagNameStr (PyVal.str nm) = Except.ok nm := rfl
        rw [hstr, exceptBind_ok, hts, exceptBind_ok]
      · refine ⟨ts, ?_⟩
        simp only [collectTags]
        rw [hget, exceptBind_ok]
        rw [if_neg hhash]
        exact hts

theorem get_post_tags_resolves (r obj : PyVal) (okvs : List (String × PyVal))
    (lc ro : Bool)
    (ho : pyGet r "object" = Except.ok obj)
    (hobjd : obj = PyVal.dict okvs)
    (htags : TagsOk obj) :
    ∃ ts, get_post_tags r lc ro = Except.ok ts := by
  subst hobjd
  rcases htags with hno | ⟨tv, htv, hnl⟩ | ⟨tl, htl, hentries⟩
  · refine ⟨[], ?_⟩
    unfold get_post_tags
    rw [ho, exceptBind_ok]
    have : pyInDict (PyVal.dict okvs) "tag" = Except.ok false := by
      simp only [pyInDict, Except.ok.injEq]
      simpa [hasKeyB] using hno
    rw [this, exceptBind_ok]
    simp
  · refine ⟨[], ?_⟩
    unfold get_post_tags
    rw [ho, exceptBind_ok]
    obtain ⟨kvs2, heq, hl⟩ := pyGet_ok_dict _ _ _ htv
    injection heq with hkvs
    subst hkvs
    have : pyInDict (PyVal.dict okvs) "tag" = Except.ok true := by
      simp [pyInDict, hl]
    rw [this, exceptBind_ok]
    rw [if_neg (by simp)]
    rw [htv, exceptBind_ok]
    cases tv <;> simp_all [PyVal.isList]
  · obtain ⟨ts, hts⟩ := collectTags_resolves lc ro tl hentries
    refine ⟨ts, ?_⟩
    unfold get_post_tags
    rw [ho, exceptBind_ok]
    obtain ⟨kvs2, heq, hl⟩ := pyGet_ok_dict _ _ _ htl
    injection heq with hkvs
    subst hkvs
    have : pyInDict (PyVal.dict okvs) "tag" = Except.ok true := by
      simp [pyInDict, hl]
    rw [this, exceptBind_ok]
    rw [if_neg (by simp)]
    rw [htl, exceptBind_ok]
    exact hts

theorem beq_str_false_of_ne {v : PyVal} {s : String} (h : v ≠ PyVal.str s) :
    PyVal.beq v (PyVal.str s) = false := by
  by_cases hb : PyVal.beq v (PyVal.str s) = true
  · exact absurd ((beq_str_iff _ _).mp hb) h
  · simpa using hb

/-- C4, amended, parts proved about the code: (i) every record failing
the dict/`object` shape guard resolves to rejection without an
exception; (ii) `main` skips such a record and continues with the rest;
(iii) the check resolves (to accept or reject) on every record whose
dereferenced keys exist with usable types up to its first rejection.
(The counterexample shows the original claim's unconditional
no-exception guarantee is false: a shape-passing record with a missing
`actor`, `attributedTo`, `content` or tag-entry key raises `KeyError`,
which `main` does not catch.) -/
theorem claim_C4_selector_resolution :
    (∀ (cfg : Config) (r : PyVal), recordShapeOk r = false →
       is_exportable cfg r = Except.ok false) ∧
    (∀ (cfg : Config) (archive : PyVal) (fuel : Nat) (r : PyVal) (rest : List PyVal)
       (fs : FS) (acc : List PyVal), recordShapeOk r = false →
       mainLoopItems cfg archive fuel (r :: rest) fs acc
         = mainLoopItems cfg archive fuel rest fs acc) ∧
    (∀ (cfg : Config) (r : PyVal), WellKeyed cfg r →
       ∃ b, is_exportable cfg r = Except.ok b) := by
  refine ⟨?_, ?_, ?_⟩
  · intro cfg r hsh
    unfold is_exportable
    rw [hsh]
    simp
  · intro cfg archive fuel r rest fs acc hsh
    have hex : is_exportable cfg r = Except.ok false := by
      unfold is_exportable
      rw [hsh]
      simp
    simp only [mainLoopItems, hex, liftE_ok, Bool.false_eq_true, if_false]
  · intro cfg r hwk
    rcases hwk with hsh | ⟨obj, ho, hrest⟩
    · refine ⟨false, ?_⟩
      unfold is_exportable
      rw [hsh]
      simp
    · by_cases hsh : recordShapeOk r = true
      swap
      · refine ⟨false, ?_⟩
        unfold is_exportable
        rw [Bool.not_eq_true] at hsh
        rw [hsh]
        simp
      rcases hrest with ⟨v, hv, hvne⟩ | ⟨hact, hrest2⟩
      · refine ⟨false, ?_⟩
        unfold is_exportable
        rw [hsh, if_neg (by simp)]
        rw [hv, exceptBind_ok, beq_str_false_of_ne hvne]
        simp
      rcases hrest2 with ⟨w, hw, hwne⟩ | ⟨hattr, hrest3⟩
      · refine ⟨false, ?_⟩
        unfold is_exportable
        rw [hsh, if_neg (by simp)]
        rw [hact, exceptBind_ok]
        rw [if_neg (by simp [PyVal.beq])]
        rw [ho, exceptBind_ok, hw, exceptBind_ok, beq_str_false_of_ne hwne]
        simp
      rcases hrest3 with hirt | ⟨htags, cstr, hcontent⟩
      · refine ⟨false, ?_⟩
        unfold is_exportable
        rw [hsh, if_neg (by simp)]
        rw [hact, exceptBind_ok]
        rw [if_neg (by simp [PyVal.beq])]
        rw [ho, exceptBind_ok, hattr, exceptBind_ok]
        rw [if_neg (by simp [PyVal.beq])]
        rw [if_pos hirt]
      · obtain ⟨okvs, hobjd, _⟩ := pyGet_ok_dict obj "attributedTo" _ hattr
        obtain ⟨ts, hts⟩ := get_post_tags_resolves r obj okvs true false ho hobjd htags
        have htitle : make_post_title cfg r = Except.ok (titleFromContent cfg cstr) := by
          unfold make_post_title contentStr
          rw [ho, exceptBind_ok, hcontent, exceptBind_ok]
          rfl
        unfold is_exportable
        rw [hsh, if_neg (by simp)]
        rw [hact, exceptBind_ok]
        rw [if_neg (by simp [PyVal.beq])]
        rw [ho, exceptBind_ok, hattr, exceptBind_ok]
        rw [if_neg (by simp [PyVal.beq])]
        by_cases hirt : truthyKey obj "inReplyTo" = true
        · rw [if_pos hirt]
          exact ⟨false, rfl⟩
        · rw [if_neg hirt]
          rw [hts, exceptBind_ok]
          by_cases h1 : (!cfg.wanted_tags.isEmpty && ts.isEmpty) = true
          · rw [if_pos h1]; exact ⟨false, rfl⟩
          · rw [if_neg h1]
            by_cases h2 : (!cfg.wanted_tags.isEmpty && !setIntersects cfg.wanted_tags ts) = true
            · rw [if_pos h2]; exact ⟨false, rfl⟩
            · rw [if_neg h2]
              rw [htitle, exceptBind_ok]
              by_cases h3 : pyStartsWith "RE: " (titleFromContent cfg cstr) = true
              · rw [if_pos h3]; exact ⟨false, rfl⟩
              · rw [if_neg h3]; exact ⟨true, rfl⟩

/-- Witness for the amended C4: a non-dict record resolves to rejection,
`main` skips it, and the well-keyed record `r5w` resolves without an
exception. -/
theorem claim_C4_witness :
    is_exportable cfgA (PyVal.int 0) = Except.ok false ∧
    mainLoopItems cfgA (mkArchive [PyVal.int 0]) 1 [PyVal.int 0] [] []
      = mainLoopItems cfgA (mkArchive [PyVal.int 0]) 1 [] [] [] ∧
    ∃ b, is_exportable cfgA r5w = Except.ok b := by
  refine ⟨?_, ?_, ?_⟩
  · exact claim_C4_selector_resolution.1 cfgA (PyVal.int 0) rfl
  · exact claim_C4_selector_resolution.2.1 cfgA (mkArchive [PyVal.int 0]) 1
      (PyVal.int 0) [] [] [] rfl
  · exact claim_C4_selector_resolution.2.2 cfgA r5w
      (Or.inr ⟨obj5w, rfl,
        Or.inr ⟨rfl,
          Or.inr ⟨rfl,
            Or.inr ⟨Or.inr (Or.inr ⟨[PyVal.dict [("type", PyVal.str "Hashtag"),
                                                 ("name", PyVal.str "#cats")]], rfl,
                fun t ht => by
                  rw [List.mem_singleton] at ht
                  subst ht
                  exact ⟨[("type", PyVal.str "Hashtag"), ("name", PyVal.str "#cats")], rfl,
                         PyVal.str "Hashtag", rfl, fun _ => ⟨"#cats", rfl⟩⟩⟩),
              "<p>x</p>", rfl⟩⟩⟩⟩)

/-- One missing attachment contributes nothing: no markup, no copy, and
the loop proceeds with the remaining attachments unchanged. -/
theorem processAtt_missing (cfg : Config) (fs : FS) (a : PyVal) (u : String)
    (hu : pyGet a "url" = Except.ok (PyVal.str u))
    (hmiss : hasFile fs ("." ++ u) = false) :
    processAtt cfg fs a = Except.ok ("", fs) := by
  unfold processAtt
  rw [hu, exceptBind_ok]
  have hstr : asStr (PyVal.str u) (PyErr.typeError "can only concatenate str to str")
      = Except.ok u := rfl
  rw [hstr, exceptBind_ok]
  simp only [hmiss, Bool.not_false, if_true]

/-- C8: an attachment whose archive-local source file is missing on disk
produces no markup and no copy, the remaining attachments are processed
as if it were not there, and the processor does not fail on it; a post
all of whose attachments are missing yields empty markup and an
unchanged filesystem. -/
theorem claim_C8_missing_attachment :
    (∀ (cfg : Config) (fs : FS) (acc : String) (a : PyVal) (l2 : List PyVal) (u : String),
       pyGet a "url" = Except.ok (PyVal.str u) →
       hasFile fs ("." ++ u) = false →
       attLoop cfg (a :: l2) acc fs = attLoop cfg l2 acc fs) ∧
    (∀ (cfg : Config) (fs : FS) (atts : List PyVal),
       (∀ a ∈ atts, ∃ u, pyGet a "url" = Except.ok (PyVal.str u) ∧
          hasFile fs ("." ++ u) = false) →
       attLoop cfg atts "" fs = Except.ok ("", fs)) := by
  constructor
  · intro cfg fs acc a l2 u hu hmiss
    simp only [attLoop]
    rw [processAtt_missing cfg fs a u hu hmiss, exceptBind_ok]
    rw [String.append_empty]
  · intro cfg fs atts
    induction atts with
    | nil => intro _; rfl
    | cons a l2 ih =>
        intro hall
        obtain ⟨u, hu, hmiss⟩ := hall a (by simp)
        simp only [attLoop]
        rw [processAtt_missing cfg fs a u hu hmiss, exceptBind_ok]
        rw [String.append_empty]
        exact ih (fun a2 ha2 => hall a2 (by simp [ha2]))

/-- Witness for C8: a single attachment whose source `./media/x.png`
does not exist on an empty filesystem. -/
theorem claim_C8_witness :
    attLoop cfgA [PyVal.dict [("url", PyVal.str "/media/x.png")]] "abc" []
      = attLoop cfgA [] "abc" [] ∧
    attLoop cfgA [PyVal.dict [("url", PyVal.str "/media/x.png")]] "" []
      = Except.ok ("", []) := by
  constructor
  · exact claim_C8_missing_attachment.1 cfgA [] "abc"
      (PyVal.dict [("url", PyVal.str "/media/x.png")]) [] "/media/x.png" rfl rfl
  · exact claim_C8_missing_attachment.2 cfgA []
      [PyVal.dict [("url", PyVal.str "/media/x.png")]]
      (fun a ha => by
        rw [List.mem_singleton] at ha
        subst ha
        exact ⟨"/media/x.png", rfl, rfl⟩)

theorem FSle_refl (fs : FS) : FSle fs fs := fun _ h => h

theorem FSle_trans {fs1 fs2 fs3 : FS} (h1 : FSle fs1 fs2) (h2 : FSle fs2 fs3) :
    FSle fs1 fs3 := fun p h => h2 p (h1 p h)

theorem hasFile_setFile_mono (fs : FS) (p v q : String) (h : hasFile fs q = true) :
    hasFile (setFile fs p v) q = true := by
  simp only [hasFile, setFile, List.any_cons]
  simp only [hasFile] at h
  simp [h]

theorem hasFile_setFile_self (fs : FS) (p v : String) :
    hasFile (setFile fs p v) p = true := by
  simp [hasFile, setFile]

theorem copyFile_FSle (fs : FS) (src dst : String) : FSle fs (copyFile fs src dst) := by
  intro p h
  unfold copyFile
  cases getFile fs src with
  | none => exact h
  | some v => exact hasFile_setFile_mono fs dst v p h

theorem PostsPreserved_refl (fs : FS) : PostsPreserved fs fs := fun _ _ => rfl

theorem PostsPreserved_trans {fs1 fs2 fs3 : FS}
    (h1 : PostsPreserved fs1 fs2) (h2 : PostsPreserved fs2 fs3) :
    PostsPreserved fs1 fs3 := fun p hp => (h2 p hp).trans (h1 p hp)

/-- Attachment-copy destinations live under `./assets/images/`, which is
never a `./_posts/` path. -/
theorem assets_not_postsPath (bn : String) :
    isPostsPath ("./assets/images" ++ "/" ++ bn) = false := by
  unfold isPostsPath
  have hd : ("./assets/images" ++ "/" ++ bn).data
      = '.' :: '/' :: 'a' :: ("ssets/images".data ++ "/".data ++ bn.data) := by
    show ("./assets/images".data ++ "/".data ++ bn.data)
      = '.' :: '/' :: 'a' :: ("ssets/images".data ++ "/".data ++ bn.data)
    rfl
  rw [hd]
  rw [show ("./_posts/" : String).data
      = '.' :: '/' :: '_' :: "posts/".data from rfl]
  simp only [startsWithList]
  rw [show (('_' : Char) == 'a') = false from rfl]
  simp

theorem getFile_setFile_ne (fs : FS) (p v q : String) (h : ¬(p == q) = true) :
    getFile (setFile fs p v) q = getFile fs q := by
  simp only [getFile, setFile, List.find?]
  rw [Bool.not_eq_true] at h
  rw [h]

/-- Copying to a non-posts path leaves every posts path unchanged. -/
theorem copyFile_PostsPreserved (fs : FS) (src dst : String)
    (hdst : isPostsPath dst = false) : PostsPreserved fs (copyFile fs src dst) := by
  intro p hp
  unfold copyFile
  cases getFile fs src with
  | none => rfl
  | some v =>
      apply getFile_setFile_ne
      intro hb
      have : dst = p := by simpa using hb
      subst this
      rw [hp] at hdst
      exact absurd hdst (by simp)

theorem bind_ok_inv {α β : Type} (m : Except PyErr α) (f : α → Except PyErr β) (b : β)
    (h : (m >>= f) = Except.ok b) : ∃ a, m = Except.ok a ∧ f a = Except.ok b := by
  cases m with
  | error e => rw [exceptBind_err] at h; exact absurd h (by simp)
  | ok a => rw [exceptBind_ok] at h; exact ⟨a, rfl, h⟩

/-- One attachment step only grows the filesystem, and only via copies
into the attachment directory. -/
theorem processAtt_fs (cfg : Config) (fs : FS) (a : PyVal) (r : String × FS)
    (h : processAtt cfg fs a = Except.ok r) :
    FSle fs r.2 ∧ (cfg.attachment_dir = "./assets/images" → PostsPreserved fs r.2) := by
  unfold processAtt at h
  obtain ⟨urlv, _, h⟩ := bind_ok_inv _ _ _ h
  obtain ⟨u, _, h⟩ := bind_ok_inv _ _ _ h
  split at h
  · simp only [Except.ok.injEq] at h
    subst h
    exact ⟨FSle_refl fs, fun _ => PostsPreserved_refl fs⟩
  · obtain ⟨entry, _, h⟩ := bind_ok_inv _ _ _ h
    simp only [Except.ok.injEq] at h
    subst h
    constructor
    · exact copyFile_FSle fs _ _
    · intro had
      apply copyFile_PostsPreserved
      rw [had]
      exact assets_not_postsPath _

theorem attLoop_fs (cfg : Config) : ∀ (atts : List PyVal) (acc : String) (fs : FS)
    (r : String × FS), attLoop cfg atts acc fs = Except.ok r →
    FSle fs r.2 ∧ (cfg.attachment_dir = "./assets/images" → PostsPreserved fs r.2) := by
  intro atts
  induction atts with
  | nil =>
      intro acc fs r h
      simp only [attLoop, Except.ok.injEq] at h
      subst h
      exact ⟨FSle_refl fs, fun _ => PostsPreserved_refl fs⟩
  | cons a atts ih =>
      intro acc fs r h
      simp only [attLoop] at h
      obtain ⟨r1, hr1, h⟩ := bind_ok_inv _ _ _ h
      have h1 := processAtt_fs cfg fs a r1 hr1
      have h2 := ih _ _ _ h
      exact ⟨FSle_trans h1.1 h2.1,
             fun had => PostsPreserved_trans (h1.2 had) (h2.2 had)⟩

theorem process_attachments_fs (cfg : Config) (fs : FS) (post : PyVal)
    (r : String × FS) (h : process_attachments cfg fs post = Except.ok r) :
    FSle fs r.2 ∧ (cfg.attachment_dir = "./assets/images" → PostsPreserved fs r.2) := by
  unfold process_attachments at h
  obtain ⟨obj, _, h⟩ := bind_ok_inv _ _ _ h
  obtain ⟨tin, _, h⟩ := bind_ok_inv _ _ _ h
  split at h
  · simp only [Except.ok.injEq] at h
    subst h
    exact ⟨FSle_refl fs, fun _ => PostsPreserved_refl fs⟩
  · obtain ⟨av, _, h⟩ := bind_ok_inv _ _ _ h
    split at h
    · exact attLoop_fs cfg _ _ _ _ h
    · simp only [Except.ok.injEq] at h
      subst h
      exact ⟨FSle_refl fs, fun _ => PostsPreserved_refl fs⟩

/-- The replies loop only changes the filesystem through its renderer
argument. -/
theorem repliesLoop_fs (cfg : Config) (archive : PyVal)
    (f : PyVal → FS → PyRes (String × FS))
    (hf : ∀ p fs r, f p fs = PyRes.ok r →
       FSle fs r.2 ∧ (cfg.attachment_dir = "./assets/images" → PostsPreserved fs r.2)) :
    ∀ (items : List PyVal) (bt : String) (fs : FS) (r : String × FS),
    repliesLoop cfg archive f items bt fs = PyRes.ok r →
    FSle fs r.2 ∧ (cfg.attachment_dir = "./assets/images" → PostsPreserved fs r.2) := by
  intro items
  induction items with
  | nil =>
      intro bt fs r h
      simp only [repliesLoop, PyRes.ok.injEq] at h
      subst h
      exact ⟨FSle_refl fs, fun _ => PostsPreserved_refl fs⟩
  | cons rid rest ih =>
      intro bt fs r h
      simp only [repliesLoop] at h
      obtain ⟨rp, hfind, h⟩ := liftE_ok_inv _ _ _ h
      split at h
      · obtain ⟨sf, hsf, h⟩ := bindR_ok_inv _ _ _ h
        have ha := hf rp fs sf hsf
        have hb := ih _ _ _ h
        exact ⟨FSle_trans ha.1 hb.1,
               fun had => PostsPreserved_trans (ha.2 had) (hb.2 had)⟩
      · exact ih _ _ _ h

/-- The thread renderer only changes the filesystem through attachment
copies. -/
theorem make_post_text_fs (cfg : Config) (archive : PyVal) :
    ∀ (fuel : Nat) (post : PyVal) (fs : FS) (r : String × FS),
    make_post_text cfg archive fuel post fs = PyRes.ok r →
    FSle fs r.2 ∧ (cfg.attachment_dir = "./assets/images" → PostsPreserved fs r.2) := by
  intro fuel
  induction fuel with
  | zero => intro post fs r h; exact absurd h (by simp [make_post_text])
  | succ n ih =>
      intro post fs r h
      simp only [make_post_text] at h
      split at h
      · simp only [PyRes.ok.injEq] at h
        subst h
        exact ⟨FSle_refl fs, fun _ => PostsPreserved_refl fs⟩
      · obtain ⟨c, hc, h⟩ := liftE_ok_inv _ _ _ h
        obtain ⟨pr, hpa, h⟩ := liftE_ok_inv _ _ _ h
        have h1 := process_attachments_fs cfg fs post pr hpa
        revert h
        cases replyItemsOf post with
        | none =>
            intro h
            simp only [PyRes.ok.injEq] at h
            subst h
            exact h1
        | some items =>
            intro h
            have h2 := repliesLoop_fs cfg archive
              (make_post_text cfg archive n) (fun p fs r => ih p fs r)
              items _ pr.2 r h
            exact ⟨FSle_trans h1.1 h2.1,
                   fun had => PostsPreserved_trans (h1.2 had) (h2.2 had)⟩

theorem startsWithList_append_self : ∀ p t : List Char, startsWithList p (p ++ t) = true := by
  intro p
  induction p with
  | nil => intro t; rfl
  | cons c p ih => intro t; simp [startsWithList, ih]

/-- With the source configuration's posts directory, every generated
filename lies under `./_posts/`. -/
theorem make_post_filename_postsPath (cfg : Config) (a : PyVal) (fn : String)
    (hposts : cfg.posts_dir = "./_posts")
    (h : make_post_filename cfg a = Except.ok fn) : isPostsPath fn = true := by
  unfold make_post_filename at h
  obtain ⟨slug, _, h⟩ := bind_ok_inv _ _ _ h
  obtain ⟨ldt, _, h⟩ := bind_ok_inv _ _ _ h
  simp only [Except.ok.injEq] at h
  subst h
  rw [hposts]
  unfold isPostsPath
  show startsWithList "./_posts/".data
    (((((("./_posts" : String).data ++ ("/" : String).data) ++ (strfDate ldt).data)
      ++ ("-" : String).data) ++ slug.data) ++ (".markdown" : String).data) = true
  rw [show ("./_posts" : String).data ++ ("/" : String).data = ("./_posts/" : String).data from rfl]
  simp only [List.append_assoc]
  exact startsWithList_append_self _ _

theorem setFile_FSle (fs : FS) (p v : String) : FSle fs (setFile fs p v) :=
  fun q hq => hasFile_setFile_mono fs p v q hq

theorem writePostFile_exists (fs : FS) (fn : String) (h : hasFile fs fn = true) :
    ∀ t, writePostFile fs fn t = (fs, false) := by
  intro t
  unfold writePostFile
  rw [if_pos h]

theorem writePostFile_new (fs : FS) (fn : String) (h : hasFile fs fn = false) :
    ∀ t, writePostFile fs fn t = (setFile fs fn t, true) := by
  intro t
  unfold writePostFile
  rw [if_neg (by simp [h])]

/-- What one accepted-record generation step does to the filesystem:
it only grows, the generated filename exists afterwards, and when that
filename already existed beforehand nothing is written (no id recorded,
posts paths preserved — only attachment copies happen). -/
theorem generatePost_fs (cfg : Config) (archive : PyVal) (fuel : Nat) (fs : FS)
    (apost : PyVal) (r : FS × Option PyVal)
    (h : generatePost cfg archive fuel fs apost = PyRes.ok r) :
    FSle fs r.1 ∧
    (∀ fn, make_post_filename cfg apost = Except.ok fn → hasFile r.1 fn = true) ∧
    (cfg.attachment_dir = "./assets/images" →
      (∀ fn, make_post_filename cfg apost = Except.ok fn → hasFile fs fn = true) →
      r.2 = Option.none ∧ PostsPreserved fs r.1) := by
  unfold generatePost at h
  obtain ⟨fm, hfm, h⟩ := liftE_ok_inv _ _ _ h
  obtain ⟨bodyfs, hbody, h⟩ := bindR_ok_inv _ _ _ h
  obtain ⟨url, hurl, h⟩ := liftE_ok_inv _ _ _ h
  obtain ⟨filename, hfn, h⟩ := liftE_ok_inv _ _ _ h
  have hmpt := make_post_text_fs cfg archive fuel apost fs bodyfs hbody
  by_cases hex : hasFile bodyfs.2 filename = true
  · rw [writePostFile_exists bodyfs.2 filename hex] at h
    rw [if_neg (by simp)] at h
    simp only [PyRes.ok.injEq] at h
    subst h
    refine ⟨hmpt.1, ?_, ?_⟩
    · intro fn hfn2
      rw [hfn] at hfn2
      simp only [Except.ok.injEq] at hfn2
      subst hfn2
      exact hex
    · intro had _
      exact ⟨rfl, hmpt.2 had⟩
  · have hex2 : hasFile bodyfs.2 filename = false := by simpa using hex
    rw [writePostFile_new bodyfs.2 filename hex2] at h
    rw [if_pos (by simp)] at h
    obtain ⟨idv, hid, h⟩ := liftE_ok_inv _ _ _ h
    simp only [PyRes.ok.injEq] at h
    subst h
    refine ⟨FSle_trans hmpt.1 (setFile_FSle _ _ _), ?_, ?_⟩
    · intro fn hfn2
      rw [hfn] at hfn2
      simp only [Except.ok.injEq] at hfn2
      subst hfn2
      exact hasFile_setFile_self _ _ _
    · intro had hcov
      have := hmpt.1 filename (hcov filename hfn)
      rw [this] at hex2
      exact absurd hex2 (by simp)

theorem mainLoopItems_fs (cfg : Config) (archive : PyVal) (fuel : Nat) :
    ∀ (items : List PyVal) (fs : FS) (acc : List PyVal) (res : FS × List PyVal),
    mainLoopItems cfg archive fuel items fs acc = PyRes.ok res → FSle fs res.1 := by
  intro items
  induction items with
  | nil =>
      intro fs acc res h
      simp only [mainLoopItems, PyRes.ok.injEq] at h
      subst h
      exact FSle_refl fs
  | cons a rest ih =>
      intro fs acc res h
      simp only [mainLoopItems] at h
      obtain ⟨b, hb, h⟩ := liftE_ok_inv _ _ _ h
      split at h
      · obtain ⟨fr, hgen, h⟩ := bindR_ok_inv _ _ _ h
        have h1 := (generatePost_fs cfg archive fuel fs a fr hgen).1
        revert h
        cases fr.2 with
        | some pid => intro h; exact FSle_trans h1 (ih _ _ _ h)
        | none => intro h; exact FSle_trans h1 (ih _ _ _ h)
      · exact ih _ _ _ h

/-- After a completed pass, the filename of every accepted record exists
on the filesystem. -/
theorem mainLoopItems_cover (cfg : Config) (archive : PyVal) (fuel : Nat) :
    ∀ (items : List PyVal) (fs : FS) (acc : List PyVal) (res : FS × List PyVal),
    mainLoopItems cfg archive fuel items fs acc = PyRes.ok res →
    ∀ a ∈ items, is_exportable cfg a = Except.ok true →
    ∀ fn, make_post_filename cfg a = Except.ok fn → hasFile res.1 fn = true := by
  intro items
  induction items with
  | nil => intro fs acc res _ a ha; simp at ha
  | cons a0 rest ih =>
      intro fs acc res h a ha hexp fn hfn
      simp only [mainLoopItems] at h
      obtain ⟨b, hb, h⟩ := liftE_ok_inv _ _ _ h
      rcases List.mem_cons.mp ha with rfl | hmem
      · rw [hexp] at hb
        simp only [Except.ok.injEq] at hb
        subst hb
        rw [if_pos rfl] at h
        obtain ⟨fr, hgen, h⟩ := bindR_ok_inv _ _ _ h
        have h1 := (generatePost_fs cfg archive fuel fs a fr hgen).2.1 fn hfn
        revert h
        cases fr.2 with
        | some pid => intro h; exact mainLoopItems_fs cfg archive fuel _ _ _ _ h fn h1
        | none => intro h; exact mainLoopItems_fs cfg archive fuel _ _ _ _ h fn h1
      · split at h
        · obtain ⟨fr, hgen, h⟩ := bindR_ok_inv _ _ _ h
          revert h
          cases fr.2 with
          | some pid => intro h; exact ih _ _ _ h a hmem hexp fn hfn
          | none => intro h; exact ih _ _ _ h a hmem hexp fn hfn
        · exact ih _ _ _ h a hmem hexp fn hfn

/-- A pass over records whose accepted filenames all already exist
appends nothing to the generated list and leaves every posts path
untouched. -/
theorem mainLoopItems_no_new (cfg : Config) (archive : PyVal) (fuel : Nat)
    (had : cfg.attachment_dir = "./assets/images") :
    ∀ (items : List PyVal) (fs : FS) (acc : List PyVal) (res : FS × List PyVal),
    (∀ a ∈ items, is_exportable cfg a = Except.ok true →
       ∀ fn, make_post_filename cfg a = Except.ok fn → hasFile fs fn = true) →
    mainLoopItems cfg archive fuel items fs acc = PyRes.ok res →
    res.2 = acc ∧ PostsPreserved fs res.1 := by
  intro items
  induction items with
  | nil =>
      intro fs acc res _ h
      simp only [mainLoopItems, PyRes.ok.injEq] at h
      subst h
      exact ⟨rfl, PostsPreserved_refl fs⟩
  | cons a0 rest ih =>
      intro fs acc res hcov h
      simp only [mainLoopItems] at h
      obtain ⟨b, hb, h⟩ := liftE_ok_inv _ _ _ h
      split at h
      · rename_i hbt
        subst hbt
        obtain ⟨fr, hgen, h⟩ := bindR_ok_inv _ _ _ h
        have hg := generatePost_fs cfg archive fuel fs a0 fr hgen
        have hskip := hg.2.2 had (fun fn hfn => hcov a0 (by simp) hb fn hfn)
        revert h
        cases hfr2 : fr.2 with
        | some pid =>
            intro h
            rw [hfr2] at hskip
            exact absurd hskip.1 (by simp)
        | none =>
            intro h
            have hrest := ih fr.1 acc res
              (fun a ha hexp fn hfn => hg.1 fn (hcov a (by simp [ha]) hexp fn hfn)) h
            exact ⟨hrest.1, PostsPreserved_trans hskip.2 hrest.2⟩
      · exact ih fs acc res (fun a ha hexp fn hfn => hcov a (by simp [ha]) hexp fn hfn) h

/-- C6: post files are written with exclusive-create semantics — an
existing target path is never overwritten and the write reports failure,
after which processing continues — and running the export twice over the
same archive into the same output tree yields a second run that records
zero newly generated posts and leaves the contents of every generated
post path exactly as the first run left them. -/
theorem claim_C6_exclusive_create_rerun :
    (∀ (fs : FS) (fn txt : String), hasFile fs fn = true →
       writePostFile fs fn txt = (fs, false)) ∧
    (∀ (cfg : Config) (archive : PyVal) (fuel : Nat) (fs0 fs1 fs2 : FS)
       (w1 w2 : List PyVal),
       cfg.posts_dir = "./_posts" → cfg.attachment_dir = "./assets/images" →
       runMain cfg archive fuel fs0 = PyRes.ok (fs1, w1) →
       runMain cfg archive fuel fs1 = PyRes.ok (fs2, w2) →
       w2 = [] ∧
       (∀ (a : PyVal) (fn : String), make_post_filename cfg a = Except.ok fn →
          getFile fs2 fn = getFile fs1 fn)) := by
  constructor
  · intro fs fn txt h
    exact writePostFile_exists fs fn h txt
  · intro cfg archive fuel fs0 fs1 fs2 w1 w2 hposts had h1 h2
    unfold runMain at h1 h2
    obtain ⟨items1, hi1, h1⟩ := liftE_ok_inv _ _ _ h1
    obtain ⟨items2, hi2, h2⟩ := liftE_ok_inv _ _ _ h2
    rw [hi1] at hi2
    injection hi2 with hii
    subst hii
    have hcov := mainLoopItems_cover cfg archive fuel items1 fs0 [] (fs1, w1) h1
    have hnn := mainLoopItems_no_new cfg archive fuel had items1 fs1 [] (fs2, w2)
      (fun a ha hexp fn hfn => hcov a ha hexp fn hfn) h2
    refine ⟨hnn.1, ?_⟩
    intro a fn hfn
    exact hnn.2 fn (make_post_filename_postsPath cfg a fn hposts hfn)

/-- Witness for C6: a concrete archive whose first run writes one file
and whose second run, started from the resulting filesystem, generates
nothing and leaves the file untouched. -/
theorem claim_C6_witness :
    writePostFile [("a", "b")] "a" "c" = ([("a", "b")], false) ∧
    (([] : List PyVal) = [] ∧
     ∀ (a : PyVal) (fn : String), make_post_filename cfgA a = Except.ok fn →
       getFile fsC6 fn = getFile fsC6 fn) := by
  constructor
  · exact claim_C6_exclusive_create_rerun.1 [("a", "b")] "a" "c" rfl
  · exact claim_C6_exclusive_create_rerun.2 cfgA (mkArchive [rootC6, replyC6]) 5
      [] fsC6 fsC6 [PyVal.str "1"] [] rfl rfl (by rfl) (by rfl)
